import Mathlib

/-!
# Funding commands and the funding REST service of bitfinex-api-go

A shallow embedding of

* `pkg/models/fundingoffer/cancel.go` : `CancelRequest`, `CancelAllRequest`
  and their `ToJSON` / `MarshalJSON` methods;
* `v2/rest/funding.go` : `KeepFundingRequest` and the ten methods of
  `FundingService`.

Go strings and byte slices are modelled by `String` (the well-formed UTF-8
ones), Go `int64` / `int` by `Int` with the 64-bit wrap of `strconv` written
out, Go `(value, error)` results of the library encoders by `Except`, and the
`(pointer, error)` results of the service methods by a pair of options, `none`
standing for `nil`.  The parts of the Go standard library the two files call
(`strconv.FormatInt`, `encoding/json.Marshal` on flat structs, `fmt.Sprintf`
with `%s`, `path.Join` / `path.Clean`) are embedded from their sources.
-/

namespace Bitfinex

/-! ## Errors -/

/-- A Go `error`, identified with its message. -/
abbrev Error := String

/-! ## `strconv.FormatInt` in base 10 -/

/-- The character of a decimal digit, `'0' + d`. -/
def digitChar (d : Nat) : Char := Char.ofNat (48 + d)

/-- The digit loop of `strconv.formatBits` in base 10: the least significant
digit of `u` is written first, at the right end of the buffer.  The Go loop
writes two digits per round from a table, and `FormatInt` answers values below
100 from the same table; the digits are the same.  The first argument bounds
the number of rounds; a `uint64` has at most 20 digits. -/
def formatBitsLoop : Nat → Nat → List Char → List Char
  | 0, _, buf => buf
  | rounds + 1, u, buf =>
    if u < 10 then digitChar u :: buf
    else formatBitsLoop rounds (u / 10) (digitChar (u % 10) :: buf)

/-- Go `strconv.formatBits(dst, u, 10, neg, true)`: `u` is a `uint64`; when `neg`
is set it is negated modulo `2^64` and a minus sign is written in front. -/
def formatBits (u : Nat) (neg : Bool) : List Char :=
  let v := if neg then (2 ^ 64 - u) % 2 ^ 64 else u
  let ds := formatBitsLoop 20 v []
  if neg then '-' :: ds else ds

/-- Go `strconv.FormatInt(i, 10)` for an `int64` `i`: the conversion
`uint64(i)` is `i mod 2^64`. -/
def formatInt (i : Int) : List Char :=
  formatBits (i % 2 ^ 64).toNat (decide (i < 0))

/-! ## `encoding/json.Marshal` on flat structs -/

/-- The lower-case hexadecimal digit of a value below sixteen. -/
def hexChar (n : Nat) : Char :=
  if n < 10 then Char.ofNat (48 + n) else Char.ofNat (87 + n)

/-- One character of a string as `encodeState.string` / `appendString` writes
it with HTML escaping on, the setting `json.Marshal` uses: a backslash escape
for `\`, `"`, backspace, form feed, line feed, carriage return and tab,
`\u00XX` for the other control characters and for `<`, `>` and `&`, `\u2028`
and `\u2029` for the two line separators. -/
def encodeChar (c : Char) : List Char :=
  if c = '\\' ∨ c = '\"' then ['\\', c]
  else if c.toNat = 8 then ['\\', 'b']
  else if c.toNat = 12 then ['\\', 'f']
  else if c = '\n' then ['\\', 'n']
  else if c = '\r' then ['\\', 'r']
  else if c = '\t' then ['\\', 't']
  else if c.toNat < 32 ∨ c = '<' ∨ c = '>' ∨ c = '&' then
    ['\\', 'u', '0', '0', hexChar (c.toNat / 16), hexChar (c.toNat % 16)]
  else if c.toNat = 8232 ∨ c.toNat = 8233 then
    ['\\', 'u', '2', '0', '2', hexChar (c.toNat % 16)]
  else [c]

/-- A JSON string literal as `encodeState.string` writes it. -/
def encodeString (s : String) : List Char :=
  '\"' :: (s.data.flatMap encodeChar ++ ['\"'])

/-- The Go values that occur as fields of the structs marshalled here. -/
inductive GoValue where
  | int (i : Int)
  | string (s : String)
  deriving DecidableEq, Repr

/-- A field of a Go struct as `encoding/json` sees it through reflection: its
Go name, the name given by its `json:"..."` tag (empty when there is no tag),
and its value. -/
structure StructField where
  name : String
  tag : String
  value : GoValue
  deriving DecidableEq, Repr

/-- A struct field is exported when its Go name starts with an upper-case
letter; `encoding/json` leaves the other fields out, tag or no tag. -/
def StructField.exported (f : StructField) : Bool :=
  match f.name.data with
  | c :: _ => c.isUpper
  | [] => false

/-- The key under which a field is written: its tag name, or its Go name when
it has no tag. -/
def StructField.key (f : StructField) : String :=
  if f.tag = "" then f.name else f.tag

/-- A field value as the encoder writes it: integers with
`strconv.AppendInt(_, v, 10)`, strings with `encodeState.string`. -/
def encodeValue : GoValue → List Char
  | .int i => formatInt i
  | .string s => encodeString s

/-- One `"key":value` member. -/
def encodeField (f : StructField) : List Char :=
  '\"' :: (f.key.data ++ '\"' :: ':' :: encodeValue f.value)

/-- The members of an object, separated by commas. -/
def encodeMembers : List StructField → List Char
  | [] => []
  | [f] => encodeField f
  | f :: g :: rest => encodeField f ++ ',' :: encodeMembers (g :: rest)

/-- Go `json.Marshal` of a struct whose fields are integers and strings: the
exported fields in declaration order, in compact form.  It has no failing
case on such a struct. -/
def jsonMarshal (fields : List StructField) : Except Error String :=
  .ok (String.mk ('\x7b' :: (encodeMembers (fields.filter StructField.exported) ++ ['\x7d'])))

/-! ## Reading JSON texts

The values the encoders above can produce, and a reader for their texts: it is
used to state what a produced byte string denotes as JSON.  It follows the
JSON grammar for objects, arrays, strings, integers and the three literals;
a number with a fraction or an exponent is refused, as `json.Unmarshal` refuses
it for an integer field. -/

/-- A JSON value; object members are kept in the order of the text. -/
inductive JSON where
  | null
  | bool (b : Bool)
  | num (n : Int)
  | str (s : String)
  | arr (elems : List JSON)
  | obj (members : List (String × JSON))

/-- Drops leading JSON white space. -/
def skipWS : List Char → List Char
  | [] => []
  | c :: cs => if c = ' ' ∨ c = '\t' ∨ c = '\n' ∨ c = '\r' then skipWS cs else c :: cs

/-- Whether a character is one of `0` .. `9`. -/
def isDigit (c : Char) : Bool := decide (48 ≤ c.toNat ∧ c.toNat ≤ 57)

/-- Reads a run of decimal digits, most significant first, onto `acc`. -/
def readDigits : Nat → List Char → Nat × List Char
  | acc, [] => (acc, [])
  | acc, c :: cs =>
    if isDigit c then readDigits (10 * acc + (c.toNat - 48)) cs else (acc, c :: cs)

/-- Reads the digits of a JSON integer: a single `0`, or a run of digits that
does not start with `0`. -/
def readNat : List Char → Option (Nat × List Char)
  | [] => none
  | c :: cs =>
    if c = '0' then some (0, cs)
    else if isDigit c then some (readDigits 0 (c :: cs))
    else none

/-- The value of a hexadecimal digit. -/
def hexVal (c : Char) : Option Nat :=
  if isDigit c then some (c.toNat - 48)
  else if 97 ≤ c.toNat ∧ c.toNat ≤ 102 then some (c.toNat - 87)
  else if 65 ≤ c.toNat ∧ c.toNat ≤ 70 then some (c.toNat - 55)
  else none

/-- The character a one-letter escape stands for. -/
def unescape (c : Char) : Option Char :=
  if c = '\"' then some '\"'
  else if c = '\\' then some '\\'
  else if c = '/' then some '/'
  else if c = 'b' then some (Char.ofNat 8)
  else if c = 'f' then some (Char.ofNat 12)
  else if c = 'n' then some '\n'
  else if c = 'r' then some '\r'
  else if c = 't' then some '\t'
  else none

/-- Reads the rest of a string literal, after its opening quote; `acc` holds
the characters read so far, last first.  The first argument bounds the number
of characters read. -/
def readString : Nat → List Char → List Char → Option (String × List Char)
  | 0, _, _ => none
  | _ + 1, [], _ => none
  | fuel + 1, c :: cs, acc =>
    if c = '\"' then some (String.mk acc.reverse, cs)
    else if c = '\\' then
      match cs with
      | [] => none
      | e :: rest =>
        if e = 'u' then
          match rest with
          | h1 :: h2 :: h3 :: h4 :: rest4 =>
            match hexVal h1, hexVal h2, hexVal h3, hexVal h4 with
            | some a, some b, some c4, some d =>
              readString fuel rest4 (Char.ofNat (((a * 16 + b) * 16 + c4) * 16 + d) :: acc)
            | _, _, _, _ => none
          | _ => none
        else
          match unescape e with
          | some u => readString fuel rest (u :: acc)
          | none => none
    else if c.toNat < 32 then none
    else readString fuel cs (c :: acc)

mutual

/-- Reads one JSON value and returns it with the text that follows it.  The
first argument bounds the nesting depth and the number of elements read. -/
def parseValue : Nat → List Char → Option (JSON × List Char)
  | 0, _ => none
  | fuel + 1, cs =>
    match skipWS cs with
    | [] => none
    | c :: rest =>
      if c = '-' then
        match readNat rest with
        | some (n, r) => some (JSON.num (-(n : Int)), r)
        | none => none
      else if isDigit c then
        match readNat (c :: rest) with
        | some (n, r) => some (JSON.num (n : Int), r)
        | none => none
      else if c = '\"' then
        match readString (rest.length + 1) rest [] with
        | some (s, r) => some (JSON.str s, r)
        | none => none
      else if c = '[' then
        match skipWS rest with
        | [] => none
        | d :: r => if d = ']' then some (JSON.arr [], r) else parseElems fuel (d :: r) []
      else if c = '\x7b' then
        match skipWS rest with
        | [] => none
        | d :: r => if d = '\x7d' then some (JSON.obj [], r) else parseMembers fuel (d :: r) []
      else
        match c :: rest with
        | 'n' :: 'u' :: 'l' :: 'l' :: r => some (JSON.null, r)
        | 't' :: 'r' :: 'u' :: 'e' :: r => some (JSON.bool true, r)
        | 'f' :: 'a' :: 'l' :: 's' :: 'e' :: r => some (JSON.bool false, r)
        | _ => none

/-- Reads the elements of an array up to its closing bracket; `acc` holds the
elements read so far, last first. -/
def parseElems : Nat → List Char → List JSON → Option (JSON × List Char)
  | 0, _, _ => none
  | fuel + 1, cs, acc =>
    match parseValue fuel cs with
    | none => none
    | some (v, r) =>
      match skipWS r with
      | [] => none
      | d :: r2 =>
        if d = ',' then parseElems fuel r2 (v :: acc)
        else if d = ']' then some (JSON.arr (v :: acc).reverse, r2)
        else none

/-- Reads the members of an object up to its closing brace; `acc` holds the
members read so far, last first. -/
def parseMembers : Nat → List Char → List (String × JSON) → Option (JSON × List Char)
  | 0, _, _ => none
  | fuel + 1, cs, acc =>
    match skipWS cs with
    | [] => none
    | q :: afterQuote =>
      if q = '\"' then
        match readString (afterQuote.length + 1) afterQuote [] with
        | none => none
        | some (k, r) =>
          match skipWS r with
          | [] => none
          | colon :: r1 =>
            if colon = ':' then
              match parseValue fuel r1 with
              | none => none
              | some (v, r2) =>
                match skipWS r2 with
                | [] => none
                | d :: r3 =>
                  if d = ',' then parseMembers fuel r3 ((k, v) :: acc)
                  else if d = '\x7d' then some (JSON.obj ((k, v) :: acc).reverse, r3)
                  else none
            else none
      else none

end

/-- Reads a whole JSON text: one value, with nothing but white space after
it. -/
def parseJSON (s : String) : Option JSON :=
  match parseValue (s.length + 1) s.data with
  | some (v, r) => if skipWS r = [] then some v else none
  | none => none

/-- What the result of an encoder denotes as JSON: the value of the produced
text, or `none` when the encoder failed or the text is not a JSON text. -/
def jsonOf (r : Except Error String) : Option JSON :=
  match r with
  | .ok bytes => parseJSON bytes
  | .error _ => none

/-- The member of an object with the given name. -/
def JSON.member (key : String) : JSON → Option JSON
  | .obj members => members.lookup key
  | _ => none

/-- The element of an array at the given position, counted from 0. -/
def JSON.element (i : Nat) : JSON → Option JSON
  | .arr elems => elems.get? i
  | _ => none

/-- The number of members of an object. -/
def JSON.memberCount : JSON → Option Nat
  | .obj members => some members.length
  | _ => none

/-- Reads the `id` member of an object into an `int64`, as `json.Unmarshal`
does for a field `ID int64` tagged `json:"id"`: the member has to be a number
in the range of `int64`. -/
def decodeID (j : JSON) : Option Int :=
  match j.member "id" with
  | some (.num n) => if -(2 : Int) ^ 63 ≤ n ∧ n < (2 : Int) ^ 63 then some n else none
  | _ => none

/-! ## Package `fundingoffer` -/

namespace Fundingoffer

/-- Go `type CancelRequest struct { ID int64 }`. -/
structure CancelRequest where
  ID : Int
  deriving DecidableEq, Repr

/-- Go `CancelRequest.ToJSON`: marshals `struct { ID int64 `json:"id"` }`. -/
def CancelRequest.ToJSON (cr : CancelRequest) : Except Error String :=
  jsonMarshal [{ name := "ID", tag := "id", value := .int cr.ID }]

/-- Go `CancelRequest.MarshalJSON`: `fmt.Sprintf("[0, \"foc\", null, %s]", b)`
around the bytes of `ToJSON`. -/
def CancelRequest.MarshalJSON (cr : CancelRequest) : Except Error String :=
  match cr.ToJSON with
  | .error err => .error err
  | .ok b => .ok ("[0, \"foc\", null, " ++ b ++ "]")

/-- Go `type CancelAllRequest struct { Currency string }`. -/
structure CancelAllRequest where
  Currency : String
  deriving DecidableEq, Repr

/-- Go `CancelAllRequest.ToJSON`: marshals
`struct { currency string `json:"currency"` }`, whose only field has a
lower-case Go name. -/
def CancelAllRequest.ToJSON (cr : CancelAllRequest) : Except Error String :=
  jsonMarshal [{ name := "currency", tag := "currency", value := .string cr.Currency }]

/-- Go `CancelAllRequest.MarshalJSON`: the same envelope as for `CancelRequest`. -/
def CancelAllRequest.MarshalJSON (cr : CancelAllRequest) : Except Error String :=
  match cr.ToJSON with
  | .error err => .error err
  | .ok b => .ok ("[0, \"foc\", null, " ++ b ++ "]")

end Fundingoffer

/-! ## `path.Clean` and `path.Join` -/

/-- The backtracking of `path.Clean` on a `..` element.  The buffer is kept
last character first.  `out.w--`, then `for out.w > dotdot && out.index(out.w)
!= '/' { out.w-- }`: the character at index `out.w` is the one just dropped. -/
def backtrack (dotdot : Nat) : List Char → List Char
  | [] => []
  | c :: out => if out.length > dotdot ∧ c ≠ '/' then backtrack dotdot out else out

/-- The copy loop of `path.Clean`, `for ; r < n && path[r] != '/'; r++`:
moves the characters of one path element onto the buffer and returns what is
left of the path together with the buffer. -/
def copyElement : List Char → List Char → List Char × List Char
  | [], out => ([], out)
  | c :: rest, out => if c = '/' then (c :: rest, out) else copyElement rest (c :: out)

/-- The main loop of `path.Clean`, `for r < n`.  `rest` is the path from index
`r` on, `out` the buffer, last character first (`out.w` is its length), and
`dotdot` the index where a `..` has to stop.  The first argument bounds the
number of rounds; every round reads at least one character. -/
def cleanLoop (rooted : Bool) : Nat → List Char → List Char → Nat → List Char
  | 0, _, out, _ => out
  | _ + 1, [], out, _ => out
  | fuel + 1, c :: rest, out, dotdot =>
    if c = '/' then
      cleanLoop rooted fuel rest out dotdot
    else if c = '.' ∧ (rest = [] ∨ rest.head? = some '/') then
      cleanLoop rooted fuel rest out dotdot
    else if c = '.' ∧ rest.head? = some '.' ∧
        (rest.tail = [] ∨ rest.tail.head? = some '/') then
      if out.length > dotdot then
        cleanLoop rooted fuel rest.tail (backtrack dotdot out) dotdot
      else if rooted = false then
        let out1 := if out.length > 0 then '/' :: out else out
        cleanLoop rooted fuel rest.tail ('.' :: '.' :: out1) (out1.length + 2)
      else
        cleanLoop rooted fuel rest.tail out dotdot
    else
      let out1 :=
        if (rooted = true ∧ out.length ≠ 1) ∨ (rooted = false ∧ out.length ≠ 0) then '/' :: out
        else out
      let copied := copyElement (c :: rest) out1
      cleanLoop rooted fuel copied.1 copied.2 dotdot

/-- Go `path.Clean`, on the characters of the path. -/
def pathClean (path : List Char) : List Char :=
  match path with
  | [] => ['.']
  | c :: rest =>
    let rooted := decide (c = '/')
    let out :=
      if rooted then cleanLoop rooted path.length rest ['/'] 1
      else cleanLoop rooted path.length path [] 0
    if out.length = 0 then ['.'] else out.reverse

/-- The buffer loop of `path.Join`: the non-empty elements, and the empty ones
that follow a non-empty one, separated by `/`. -/
def joinBuf : List String → List Char → List Char
  | [], buf => buf
  | e :: rest, buf =>
    if buf.length > 0 ∨ e ≠ "" then
      joinBuf rest ((if buf.length > 0 then buf ++ ['/'] else buf) ++ e.data)
    else joinBuf rest buf

/-- Go `path.Join(elem...)`. -/
def pathJoin (elem : List String) : String :=
  let size := (elem.map String.length).sum
  if size = 0 then "" else String.mk (pathClean (joinBuf elem []))

/-- A path element that `path.Clean` copies as it stands: not empty, without
a slash, and neither `.` nor `..`. -/
def regularElement (e : List Char) : Prop :=
  e ≠ [] ∧ '/' ∉ e ∧ e ≠ ['.'] ∧ e ≠ ['.', '.']

/-- The elements of a list, each with a slash in front. -/
def slashed : List (List Char) → List Char
  | [] => []
  | e :: es => '/' :: (e ++ slashed es)

/-! ## Package `rest`: the funding service -/

namespace Rest

/-- Go `bitfinex.PermissionRead` and `bitfinex.PermissionWrite`. -/
inductive Permission where
  | PermissionRead
  | PermissionWrite
  deriving DecidableEq, Repr

/-- The types of package `bitfinex` and of the transport that `funding.go`
only passes along. `State` is whatever the request factory and the transport
read and change (nonce, connection, venue). -/
structure Sig where
  State : Type
  Request : Type
  Raw : Type
  FundingOfferSnapshot : Type
  FundingLoanSnapshot : Type
  FundingCreditSnapshot : Type
  FundingTradeSnapshot : Type
  Notification : Type
  FundingOfferRequest : Type
  FundingOfferCancelRequest : Type

/-- A typed result of one of the service methods. -/
inductive Value (S : Sig) where
  | offers (v : S.FundingOfferSnapshot)
  | loans (v : S.FundingLoanSnapshot)
  | credits (v : S.FundingCreditSnapshot)
  | trades (v : S.FundingTradeSnapshot)
  | notification (v : S.Notification)

/-- A call of `funding.go` into a collaborator, with what the collaborator
returned: the request factory (`body` is `none` for `NewAuthenticatedRequest`),
the dispatch call `Request`, or one of the decoders. -/
inductive Event (S : Sig) where
  | factory (perm : Permission) (path : String) (body : Option String)
      (req : S.Request) (err : Option Error)
  | dispatch (req : S.Request) (raw : S.Raw) (err : Option Error)
  | decode (raw : S.Raw) (value : Option (Value S)) (err : Option Error)

/-- The state of the collaborators together with the record of the calls made
to them, oldest first. -/
structure World (S : Sig) where
  state : S.State
  log : List (Event S)

/-- The collaborators of `FundingService`: the embedded `requestFactory` and
`Synchronous`, the decoders of package `bitfinex` and `fundingtrade`, and the
`ToJSON` methods of the two request types of package `bitfinex`.  A Go result
`(x, err)` is a pair whose second component is `none` for `nil`. -/
structure Env (S : Sig) where
  NewAuthenticatedRequest :
    Permission → String → S.State → (S.Request × Option Error) × S.State
  NewAuthenticatedRequestWithBytes :
    Permission → String → String → S.State → (S.Request × Option Error) × S.State
  Request : S.Request → S.State → (S.Raw × Option Error) × S.State
  NewFundingOfferSnapshotFromRaw : S.Raw → Option S.FundingOfferSnapshot × Option Error
  NewFundingLoanSnapshotFromRaw : S.Raw → Option S.FundingLoanSnapshot × Option Error
  NewFundingCreditSnapshotFromRaw : S.Raw → Option S.FundingCreditSnapshot × Option Error
  SnapshotFromRaw : S.Raw → Option S.FundingTradeSnapshot × Option Error
  NewNotificationFromRaw : S.Raw → Option S.Notification × Option Error
  offerToJSON : S.FundingOfferRequest → String × Option Error
  cancelToJSON : S.FundingOfferCancelRequest → String × Option Error

variable {S : Sig}

/-- Go `fs.requestFactory.NewAuthenticatedRequest(perm, path)`, recorded. -/
def Env.newRequest (env : Env S) (perm : Permission) (path : String) (w : World S) :
    (S.Request × Option Error) × World S :=
  let r := env.NewAuthenticatedRequest perm path w.state
  (r.1, { state := r.2, log := w.log ++ [Event.factory perm path none r.1.1 r.1.2] })

/-- Go `fs.requestFactory.NewAuthenticatedRequestWithBytes(perm, path, body)`,
recorded. -/
def Env.newRequestWithBytes (env : Env S) (perm : Permission) (path : String) (body : String)
    (w : World S) : (S.Request × Option Error) × World S :=
  let r := env.NewAuthenticatedRequestWithBytes perm path body w.state
  (r.1, { state := r.2, log := w.log ++ [Event.factory perm path (some body) r.1.1 r.1.2] })

/-- Go `fs.Request(req)`, recorded. -/
def Env.request (env : Env S) (req : S.Request) (w : World S) :
    (S.Raw × Option Error) × World S :=
  let r := env.Request req w.state
  (r.1, { state := r.2, log := w.log ++ [Event.dispatch req r.1.1 r.1.2] })

/-- A decoder call, recorded; `wrap` names the kind of value decoded. -/
def Env.decodeWith {α : Type} (decoder : S.Raw → Option α × Option Error)
    (wrap : α → Value S) (raw : S.Raw) (w : World S) : (Option α × Option Error) × World S :=
  let r := decoder raw
  (r, { state := w.state, log := w.log ++ [Event.decode raw (r.1.map wrap) r.2] })

/-- Go `FundingService.Offers`: the active funding offers. -/
def FundingService.Offers (env : Env S) (symbol : String) (w : World S) :
    (Option S.FundingOfferSnapshot × Option Error) × World S :=
  match env.newRequest Permission.PermissionRead (pathJoin ["funding/offers", symbol]) w with
  | ((_, some err), w1) => ((none, some err), w1)
  | ((req, none), w1) =>
    match env.request req w1 with
    | ((_, some err), w2) => ((none, some err), w2)
    | ((raw, none), w2) =>
      match Env.decodeWith env.NewFundingOfferSnapshotFromRaw Value.offers raw w2 with
      | ((_, some err), w3) => ((none, some err), w3)
      | ((offers, none), w3) => ((offers, none), w3)

/-- Go `FundingService.OfferHistory`: the past funding offers. -/
def FundingService.OfferHistory (env : Env S) (symbol : String) (w : World S) :
    (Option S.FundingOfferSnapshot × Option Error) × World S :=
  match env.newRequest Permission.PermissionRead (pathJoin ["funding/offers", symbol, "hist"]) w with
  | ((_, some err), w1) => ((none, some err), w1)
  | ((req, none), w1) =>
    match env.request req w1 with
    | ((_, some err), w2) => ((none, some err), w2)
    | ((raw, none), w2) =>
      match Env.decodeWith env.NewFundingOfferSnapshotFromRaw Value.offers raw w2 with
      | ((_, some err), w3) => ((none, some err), w3)
      | ((offers, none), w3) => ((offers, none), w3)

/-- Go `FundingService.Loans`: the active funding loans. -/
def FundingService.Loans (env : Env S) (symbol : String) (w : World S) :
    (Option S.FundingLoanSnapshot × Option Error) × World S :=
  match env.newRequest Permission.PermissionRead (pathJoin ["funding/loans", symbol]) w with
  | ((_, some err), w1) => ((none, some err), w1)
  | ((req, none), w1) =>
    match env.request req w1 with
    | ((_, some err), w2) => ((none, some err), w2)
    | ((raw, none), w2) =>
      match Env.decodeWith env.NewFundingLoanSnapshotFromRaw Value.loans raw w2 with
      | ((_, some err), w3) => ((none, some err), w3)
      | ((loans, none), w3) => ((loans, none), w3)

/-- Go `FundingService.LoansHistory`: the past funding loans. -/
def FundingService.LoansHistory (env : Env S) (symbol : String) (w : World S) :
    (Option S.FundingLoanSnapshot × Option Error) × World S :=
  match env.newRequest Permission.PermissionRead (pathJoin ["funding/loans", symbol, "hist"]) w with
  | ((_, some err), w1) => ((none, some err), w1)
  | ((req, none), w1) =>
    match env.request req w1 with
    | ((_, some err), w2) => ((none, some err), w2)
    | ((raw, none), w2) =>
      match Env.decodeWith env.NewFundingLoanSnapshotFromRaw Value.loans raw w2 with
      | ((_, some err), w3) => ((none, some err), w3)
      | ((loans, none), w3) => ((loans, none), w3)

/-- Go `FundingService.Credits`: the active credits used in positions. -/
def FundingService.Credits (env : Env S) (symbol : String) (w : World S) :
    (Option S.FundingCreditSnapshot × Option Error) × World S :=
  match env.newRequest Permission.PermissionRead (pathJoin ["funding/credits", symbol]) w with
  | ((_, some err), w1) => ((none, some err), w1)
  | ((req, none), w1) =>
    match env.request req w1 with
    | ((_, some err), w2) => ((none, some err), w2)
    | ((raw, none), w2) =>
      match Env.decodeWith env.NewFundingCreditSnapshotFromRaw Value.credits raw w2 with
      | ((_, some err), w3) => ((none, some err), w3)
      | ((loans, none), w3) => ((loans, none), w3)

/-- Go `FundingService.CreditsHistory`: the past credits used in positions. -/
def FundingService.CreditsHistory (env : Env S) (symbol : String) (w : World S) :
    (Option S.FundingCreditSnapshot × Option Error) × World S :=
  match env.newRequest Permission.PermissionRead (pathJoin ["funding/credits", symbol, "hist"]) w with
  | ((_, some err), w1) => ((none, some err), w1)
  | ((req, none), w1) =>
    match env.request req w1 with
    | ((_, some err), w2) => ((none, some err), w2)
    | ((raw, none), w2) =>
      match Env.decodeWith env.NewFundingCreditSnapshotFromRaw Value.credits raw w2 with
      | ((_, some err), w3) => ((none, some err), w3)
      | ((loans, none), w3) => ((loans, none), w3)

/-- Go `FundingService.Trades`: the matched funding trades. -/
def FundingService.Trades (env : Env S) (symbol : String) (w : World S) :
    (Option S.FundingTradeSnapshot × Option Error) × World S :=
  match env.newRequest Permission.PermissionRead (pathJoin ["funding/trades", symbol, "hist"]) w with
  | ((_, some err), w1) => ((none, some err), w1)
  | ((req, none), w1) =>
    match env.request req w1 with
    | ((_, some err), w2) => ((none, some err), w2)
    | ((raw, none), w2) =>
      match Env.decodeWith env.SnapshotFromRaw Value.trades raw w2 with
      | ((_, some err), w3) => ((none, some err), w3)
      | ((fts, none), w3) => ((fts, none), w3)

/-- Go `FundingService.SubmitOffer`: submits a new funding offer. -/
def FundingService.SubmitOffer (env : Env S) (fo : S.FundingOfferRequest) (w : World S) :
    (Option S.Notification × Option Error) × World S :=
  match env.offerToJSON fo with
  | (_, some err) => ((none, some err), w)
  | (bytes, none) =>
    match env.newRequestWithBytes Permission.PermissionWrite
        (pathJoin ["funding/offer/submit"]) bytes w with
    | ((_, some err), w1) => ((none, some err), w1)
    | ((req, none), w1) =>
      match env.request req w1 with
      | ((_, some err), w2) => ((none, some err), w2)
      | ((raw, none), w2) =>
        Env.decodeWith env.NewNotificationFromRaw Value.notification raw w2

/-- Go `FundingService.CancelOffer`: cancels the given offer. -/
def FundingService.CancelOffer (env : Env S) (fc : S.FundingOfferCancelRequest) (w : World S) :
    (Option S.Notification × Option Error) × World S :=
  match env.cancelToJSON fc with
  | (_, some err) => ((none, some err), w)
  | (bytes, none) =>
    match env.newRequestWithBytes Permission.PermissionWrite "funding/offer/cancel" bytes w with
    | ((_, some err), w1) => ((none, some err), w1)
    | ((req, none), w1) =>
      match env.request req w1 with
      | ((_, some err), w2) => ((none, some err), w2)
      | ((raw, none), w2) =>
        Env.decodeWith env.NewNotificationFromRaw Value.notification raw w2

/-- Go `type KeepFundingRequest struct`, with the fields `Type string` tagged
`json:"type"` and `ID int` tagged `json:"id"`. -/
structure KeepFundingRequest where
  Type_ : String
  ID : Int
  deriving DecidableEq, Repr

/-- Go `json.Marshal(args)` for a `KeepFundingRequest`. -/
def KeepFundingRequest.marshal (args : KeepFundingRequest) : Except Error String :=
  jsonMarshal
    [{ name := "Type", tag := "type", value := .string args.Type_ },
     { name := "ID", tag := "id", value := .int args.ID }]

/-- Go `FundingService.KeepFunding`: the type is checked first, with the error
`fmt.Errorf("Expected type: credit or loan, got: %s", args.Type)`. -/
def FundingService.KeepFunding (env : Env S) (args : KeepFundingRequest) (w : World S) :
    (Option S.Notification × Option Error) × World S :=
  if args.Type_ ≠ "credit" ∧ args.Type_ ≠ "loan" then
    ((none, some ("Expected type: credit or loan, got: " ++ args.Type_)), w)
  else
    match args.marshal with
    | .error err => ((none, some err), w)
    | .ok bytes =>
      match env.newRequestWithBytes Permission.PermissionWrite
          (pathJoin ["funding", "keep"]) bytes w with
      | ((_, some err), w1) => ((none, some err), w1)
      | ((req, none), w1) =>
        match env.request req w1 with
        | ((_, some err), w2) => ((none, some err), w2)
        | ((raw, none), w2) =>
          Env.decodeWith env.NewNotificationFromRaw Value.notification raw w2

/-! ### The ten operations as one family -/

/-- A call of one of the ten methods of `FundingService`, with its argument. -/
inductive Operation (S : Sig) where
  | Offers (symbol : String)
  | OfferHistory (symbol : String)
  | Loans (symbol : String)
  | LoansHistory (symbol : String)
  | Credits (symbol : String)
  | CreditsHistory (symbol : String)
  | Trades (symbol : String)
  | SubmitOffer (fo : S.FundingOfferRequest)
  | CancelOffer (fc : S.FundingOfferCancelRequest)
  | KeepFunding (args : KeepFundingRequest)

/-- What a method returns, with the kind of its value made explicit. -/
abbrev Reply (S : Sig) := Option (Value S) × Option Error

/-- Forgets the static type of a method result. -/
def toReply {α : Type} (wrap : α → Value S) (r : (Option α × Option Error) × World S) :
    Reply S × World S :=
  ((r.1.1.map wrap, r.1.2), r.2)

/-- Runs an operation: the method it names, on its argument. -/
def Operation.run (env : Env S) : Operation S → World S → Reply S × World S
  | .Offers symbol, w => toReply Value.offers (FundingService.Offers env symbol w)
  | .OfferHistory symbol, w => toReply Value.offers (FundingService.OfferHistory env symbol w)
  | .Loans symbol, w => toReply Value.loans (FundingService.Loans env symbol w)
  | .LoansHistory symbol, w => toReply Value.loans (FundingService.LoansHistory env symbol w)
  | .Credits symbol, w => toReply Value.credits (FundingService.Credits env symbol w)
  | .CreditsHistory symbol, w =>
    toReply Value.credits (FundingService.CreditsHistory env symbol w)
  | .Trades symbol, w => toReply Value.trades (FundingService.Trades env symbol w)
  | .SubmitOffer fo, w => toReply Value.notification (FundingService.SubmitOffer env fo w)
  | .CancelOffer fc, w => toReply Value.notification (FundingService.CancelOffer env fc w)
  | .KeepFunding args, w => toReply Value.notification (FundingService.KeepFunding env args w)

/-- A world in which no call has been made yet. -/
def World.start (st : S.State) : World S := { state := st, log := [] }

/-- The permissions of the request-factory calls of a record, in order. -/
def factoryPerms : List (Event S) → List Permission
  | [] => []
  | .factory perm _ _ _ _ :: rest => perm :: factoryPerms rest
  | _ :: rest => factoryPerms rest

/-- The paths of the request-factory calls of a record, in order. -/
def factoryPaths : List (Event S) → List String
  | [] => []
  | .factory _ path _ _ _ :: rest => path :: factoryPaths rest
  | _ :: rest => factoryPaths rest

/-- The bodies of the request-factory calls of a record, in order. -/
def factoryBodies : List (Event S) → List (Option String)
  | [] => []
  | .factory _ _ body _ _ :: rest => body :: factoryBodies rest
  | _ :: rest => factoryBodies rest

/-- The errors (`none` for `nil`) the dispatch calls of a record returned, in
order; its length is the number of dispatch calls. -/
def dispatchErrors : List (Event S) → List (Option Error)
  | [] => []
  | .dispatch _ _ err :: rest => err :: dispatchErrors rest
  | _ :: rest => dispatchErrors rest

/-- The number of decoder calls of a record. -/
def decodeCount : List (Event S) → Nat
  | [] => 0
  | .decode _ _ _ :: rest => decodeCount rest + 1
  | _ :: rest => decodeCount rest

/-! ### What the specification asks of a method

Each property relates a method to the collaborator functions it is given:
`factory` is the request-factory call the method has to make (the function of
the environment, applied to the permission, the path and, where there is one,
the body), `decoder` the decoder of the environment it has to use. -/

/-- Whenever the request factory returns an error `e`, the method returns nil
and exactly `e`, leaves the collaborators in the state the factory left them
in, and calls neither the dispatch call nor a decoder. -/
def PropagatesFactoryError {α : Type}
    (factory : S.State → (S.Request × Option Error) × S.State)
    (method : World S → (Option α × Option Error) × World S) : Prop :=
  ∀ (st : S.State) (req : S.Request) (e : Error) (st1 : S.State),
    factory st = ((req, some e), st1) →
      (method (World.start st)).1 = (none, some e) ∧
        (method (World.start st)).2.state = st1 ∧
        dispatchErrors (method (World.start st)).2.log = [] ∧
        decodeCount (method (World.start st)).2.log = 0

/-- Whenever the request factory succeeds with `req` and the dispatch call on
`req` returns an error `e`, the method returns nil and exactly `e`, leaves the
collaborators in the state the dispatch call left them in, has called the
dispatch call once, and calls no decoder. -/
def PropagatesDispatchError {α : Type} (env : Env S)
    (factory : S.State → (S.Request × Option Error) × S.State)
    (method : World S → (Option α × Option Error) × World S) : Prop :=
  ∀ (st : S.State) (req : S.Request) (st1 : S.State) (raw : S.Raw) (e : Error)
    (st2 : S.State),
    factory st = ((req, none), st1) → env.Request req st1 = ((raw, some e), st2) →
      (method (World.start st)).1 = (none, some e) ∧
        (method (World.start st)).2.state = st2 ∧
        dispatchErrors (method (World.start st)).2.log = [some e] ∧
        decodeCount (method (World.start st)).2.log = 0

/-- Whenever the request factory succeeds with `req` and the dispatch call on
`req` succeeds with the raw response `raw`: when `decoder raw` is a snapshot
`s` without an error, the method returns `s` and no error; when `decoder raw`
carries an error `e`, the method returns nil and `e`, whatever value came with
the error. -/
def ReturnsDecoded {α : Type} (env : Env S)
    (factory : S.State → (S.Request × Option Error) × S.State)
    (decoder : S.Raw → Option α × Option Error)
    (method : World S → (Option α × Option Error) × World S) : Prop :=
  ∀ (st : S.State) (req : S.Request) (st1 : S.State) (raw : S.Raw) (st2 : S.State),
    factory st = ((req, none), st1) → env.Request req st1 = ((raw, none), st2) →
      (∀ s, decoder raw = (s, none) → (method (World.start st)).1 = (s, none)) ∧
        (∀ x e, decoder raw = (x, some e) → (method (World.start st)).1 = (none, some e))

/-! ### A concrete set of collaborators -/

/-- Collaborator types for concrete runs: requests, raw responses and
notifications are numbers, snapshots are lists of numbers. -/
@[reducible] def demoSig : Sig where
  State := Nat
  Request := Nat
  Raw := Nat
  FundingOfferSnapshot := List Nat
  FundingLoanSnapshot := List Nat
  FundingCreditSnapshot := List Nat
  FundingTradeSnapshot := List Nat
  Notification := Nat
  FundingOfferRequest := Nat
  FundingOfferCancelRequest := Int

/-- Collaborators for concrete runs.  The request factory, the dispatch call
and the decoders return the given errors (`none` for success); a decoder
returns a value also when it returns an error. -/
def demoEnv (factoryErr dispatchErr decodeErr : Option Error) : Env demoSig where
  NewAuthenticatedRequest := fun _ path st => ((path.length, factoryErr), st + 1)
  NewAuthenticatedRequestWithBytes := fun _ path body st =>
    ((path.length + body.length, factoryErr), st + 1)
  Request := fun req st => ((req + st, dispatchErr), st + 1)
  NewFundingOfferSnapshotFromRaw := fun raw => (some [raw, raw + 1], decodeErr)
  NewFundingLoanSnapshotFromRaw := fun raw => (some [raw, raw + 2], decodeErr)
  NewFundingCreditSnapshotFromRaw := fun raw => (some [raw, raw + 3], decodeErr)
  SnapshotFromRaw := fun raw => (some [raw, raw + 4], decodeErr)
  NewNotificationFromRaw := fun raw => (some raw, decodeErr)
  offerToJSON := fun fo => (String.mk (formatInt fo), none)
  cancelToJSON := fun fc => (String.mk (formatInt fc), none)

end Rest

/-! # Theorems -/

section Codec

open Fundingoffer

/-! ## Decimal integers: writing and reading back -/

theorem isDigit_digitChar (d : Nat) (h : d < 10) : isDigit (digitChar d) = true := by
  interval_cases d <;> decide

theorem toNat_digitChar (d : Nat) (h : d < 10) : (digitChar d).toNat - 48 = d := by
  interval_cases d <;> decide

theorem digitChar_ne_zero (d : Nat) (h : d < 10) (h0 : d ≠ 0) : digitChar d ≠ '0' := by
  interval_cases d <;> first | decide | exact absurd rfl h0

theorem formatBitsLoop_append (rounds u : Nat) (buf : List Char) :
    formatBitsLoop rounds u buf = formatBitsLoop rounds u [] ++ buf := by
  induction rounds generalizing u buf with
  | zero => simp [formatBitsLoop]
  | succ n ih =>
    simp only [formatBitsLoop]
    split
    · simp
    · rw [ih (u / 10) (digitChar (u % 10) :: buf), ih (u / 10) [digitChar (u % 10)]]
      simp

theorem readDigits_formatBitsLoop (rounds u : Nat) (rest : List Char) (h : u < 10 ^ rounds) :
    readDigits 0 (formatBitsLoop rounds u [] ++ rest) = readDigits u rest := by
  induction rounds generalizing u rest with
  | zero =>
    have : u = 0 := by simpa using h
    subst this
    simp [formatBitsLoop]
  | succ n ih =>
    simp only [formatBitsLoop]
    split
    · rename_i hu
      simp [readDigits, isDigit_digitChar u hu, toNat_digitChar u hu]
    · rename_i hu
      have hlt : u / 10 < 10 ^ n := by
        rw [Nat.div_lt_iff_lt_mul (by norm_num)]
        calc u < 10 ^ (n + 1) := h
          _ = 10 ^ n * 10 := by ring
      have hm : u % 10 < 10 := Nat.mod_lt _ (by norm_num)
      rw [formatBitsLoop_append, List.append_assoc, ih (u / 10) _ hlt]
      simp only [List.singleton_append, readDigits, isDigit_digitChar _ hm, if_true,
        toNat_digitChar _ hm]
      congr 1
      omega

theorem formatBitsLoop_head (rounds u : Nat) :
    ∃ c cs, formatBitsLoop (rounds + 1) u [] = c :: cs ∧ isDigit c = true ∧
      (u ≠ 0 → u < 10 ^ (rounds + 1) → c ≠ '0') ∧ (u = 0 → c = '0' ∧ cs = []) := by
  induction rounds generalizing u with
  | zero =>
    simp only [formatBitsLoop]
    split
    · rename_i hu
      refine ⟨_, _, rfl, isDigit_digitChar u hu, fun h0 _ => digitChar_ne_zero u hu h0, ?_⟩
      rintro rfl
      exact ⟨rfl, rfl⟩
    · rename_i hu
      have hm : u % 10 < 10 := Nat.mod_lt _ (by norm_num)
      refine ⟨_, _, rfl, isDigit_digitChar _ hm, ?_, ?_⟩
      · intro _ h; simp at h; omega
      · rintro rfl; simp at hu
  | succ n ih =>
    rw [formatBitsLoop]
    split
    · rename_i hu
      refine ⟨_, _, rfl, isDigit_digitChar u hu, fun h0 _ => digitChar_ne_zero u hu h0, ?_⟩
      rintro rfl
      exact ⟨rfl, rfl⟩
    · rename_i hu
      obtain ⟨c, cs, hc, hd, hnz, _⟩ := ih (u / 10)
      rw [formatBitsLoop_append, hc]
      refine ⟨c, cs ++ [digitChar (u % 10)], by simp, hd, ?_, ?_⟩
      · intro _ h
        apply hnz
        · omega
        · rw [Nat.div_lt_iff_lt_mul (by norm_num)]
          calc u < 10 ^ (n + 1 + 1) := h
            _ = 10 ^ (n + 1) * 10 := by ring
      · rintro rfl; simp at hu

theorem readNat_formatBitsLoop (u : Nat) (c : Char) (rest : List Char) (h : u < 2 ^ 64)
    (hc : isDigit c = false) :
    readNat (formatBitsLoop 20 u [] ++ c :: rest) = some (u, c :: rest) := by
  obtain ⟨d, ds, hd, hdig, hnz, hz⟩ := formatBitsLoop_head 19 u
  have hlt : u < 10 ^ 20 := lt_trans h (by norm_num)
  by_cases h0 : u = 0
  · obtain ⟨rfl, rfl⟩ := hz h0
    rw [hd]
    simp [readNat, h0]
  · have hne := hnz h0 hlt
    have := readDigits_formatBitsLoop 20 u (c :: rest) hlt
    rw [hd] at this ⊢
    simp only [List.cons_append, readNat, hne, if_false, hdig, if_true]
    rw [List.cons_append] at this
    rw [this]
    simp [readDigits, hc]

theorem isDigit_facts (c : Char) (h : isDigit c = true) :
    c ≠ ' ' ∧ c ≠ '\t' ∧ c ≠ '\n' ∧ c ≠ '\r' ∧ c ≠ '-' := by
  refine ⟨?_, ?_, ?_, ?_, ?_⟩ <;> (rintro rfl; revert h; decide)

theorem formatInt_nonneg (i : Int) (h0 : 0 ≤ i) :
    formatInt i = formatBitsLoop 20 (i % 2 ^ 64).toNat [] := by
  have : ¬ i < 0 := by omega
  simp [formatInt, formatBits, this]

theorem formatInt_neg (i : Int) (h0 : i < 0) :
    formatInt i = '-' :: formatBitsLoop 20 ((2 ^ 64 - (i % 2 ^ 64).toNat) % 2 ^ 64) [] := by
  simp [formatInt, formatBits, h0]

theorem parseValue_formatInt (fuel : Nat) (i : Int) (c : Char) (rest : List Char)
    (hlo : -(2 : Int) ^ 63 ≤ i) (hhi : i < (2 : Int) ^ 63) (hc : isDigit c = false) :
    parseValue (fuel + 1) (formatInt i ++ c :: rest) = some (JSON.num i, c :: rest) := by
  by_cases h0 : i < 0
  · have hu : (2 ^ 64 - (i % 2 ^ 64).toNat) % 2 ^ 64 = (-i).toNat := by omega
    have hlt : (-i).toNat < 2 ^ 64 := by omega
    rw [formatInt_neg i h0, hu]
    simp [parseValue, skipWS, readNat_formatBitsLoop _ c rest hlt hc]
    omega
  · have h0 : 0 ≤ i := by omega
    have hu : (i % 2 ^ 64).toNat = i.toNat := by omega
    have hlt : i.toNat < 2 ^ 64 := by omega
    rw [formatInt_nonneg i h0, hu]
    obtain ⟨d, ds, hd, hdig, -, -⟩ := formatBitsLoop_head 19 i.toNat
    have hr := readNat_formatBitsLoop i.toNat c rest hlt hc
    obtain ⟨h1, h2, h3, h4, h5⟩ := isDigit_facts d hdig
    rw [hd] at hr ⊢
    simp only [List.cons_append] at hr ⊢
    simp only [parseValue, skipWS, h1, h2, h3, h4, h5, or_self, if_false, hdig, if_true, hr]
    simp
    omega

theorem isDigit_brace : isDigit '\x7d' = false := by decide

theorem parseValue_idObject (fuel : Nat) (i : Int) (rest : List Char)
    (hlo : -(2 : Int) ^ 63 ≤ i) (hhi : i < (2 : Int) ^ 63) :
    parseValue (fuel + 3)
        ('\x7b' :: '\"' :: 'i' :: 'd' :: '\"' :: ':' :: (formatInt i ++ '\x7d' :: rest)) =
      some (JSON.obj [("id", JSON.num i)], rest) := by
  have h := parseValue_formatInt fuel i '\x7d' rest hlo hhi isDigit_brace
  rw [parseValue]
  simp [skipWS, isDigit]
  rw [parseMembers]
  simp [skipWS, readString, h]

theorem CancelRequest_ToJSON_eq (cr : CancelRequest) :
    cr.ToJSON = .ok (String.mk
      ('\x7b' :: '\"' :: 'i' :: 'd' :: '\"' :: ':' :: (formatInt cr.ID ++ ['\x7d']))) := by
  rfl

theorem CancelRequest_ToJSON_parse (cr : CancelRequest)
    (hlo : -(2 : Int) ^ 63 ≤ cr.ID) (hhi : cr.ID < (2 : Int) ^ 63) :
    jsonOf cr.ToJSON = some (JSON.obj [("id", JSON.num cr.ID)]) := by
  rw [CancelRequest_ToJSON_eq]
  simp only [jsonOf, parseJSON, String.length, List.length_cons, List.length_append,
    List.length_nil]
  rw [parseValue_idObject _ cr.ID [] hlo hhi]
  simp [skipWS]

theorem CancelRequest_MarshalJSON_eq (cr : CancelRequest) :
    cr.MarshalJSON = .ok (String.mk ("[0, \"foc\", null, ".data ++
      ('\x7b' :: '\"' :: 'i' :: 'd' :: '\"' :: ':' :: (formatInt cr.ID ++ ['\x7d', ']'])))) := by
  simp [CancelRequest.MarshalJSON, CancelRequest_ToJSON_eq, String.ext_iff]

theorem parseValue_space (fuel : Nat) (cs : List Char) :
    parseValue (fuel + 1) (' ' :: cs) = parseValue (fuel + 1) cs := by
  rw [parseValue, parseValue]
  simp [skipWS]

theorem parseValue_envelope (fuel : Nat) (payload : List Char) (v : JSON) (rest : List Char)
    (h : parseValue (fuel + 1) payload = some (v, ']' :: rest))  :
    parseValue (fuel + 6) ("[0, \"foc\", null, ".data ++ payload) =
      some (JSON.arr [JSON.num 0, JSON.str "foc", JSON.null, v], rest) := by
  rw [parseValue]
  simp [skipWS, isDigit]
  rw [parseElems, parseValue]
  simp [skipWS, isDigit, readNat]
  rw [parseElems, parseValue]
  simp [skipWS, isDigit, readString]
  rw [parseElems, parseValue]
  simp [skipWS, isDigit]
  rw [parseElems, parseValue_space, h]
  simp [skipWS]

theorem CancelRequest_MarshalJSON_parse (cr : CancelRequest)
    (hlo : -(2 : Int) ^ 63 ≤ cr.ID) (hhi : cr.ID < (2 : Int) ^ 63) :
    jsonOf cr.MarshalJSON =
      some (JSON.arr
        [JSON.num 0, JSON.str "foc", JSON.null, JSON.obj [("id", JSON.num cr.ID)]]) := by
  rw [CancelRequest_MarshalJSON_eq]
  have hobj := parseValue_idObject ((formatInt cr.ID).length + 18) cr.ID [']'] hlo hhi
  have henv := parseValue_envelope ((formatInt cr.ID).length + 20) _ _ [] hobj
  have hlen : (String.mk ("[0, \"foc\", null, ".data ++
      ('\x7b' :: '\"' :: 'i' :: 'd' :: '\"' :: ':' ::
        (formatInt cr.ID ++ ['\x7d', ']'])))).length + 1 = (formatInt cr.ID).length + 20 + 6 := by
    simp [String.length]
  simp only [jsonOf, parseJSON, hlen]
  rw [show formatInt cr.ID ++ ['\x7d', ']'] = formatInt cr.ID ++ '\x7d' :: [']'] from rfl, henv]
  simp [skipWS]

theorem parseValue_keepObject (fuel : Nat) (t : String) (i : Int) (rest : List Char)
    (ht : t = "credit" ∨ t = "loan")
    (hlo : -(2 : Int) ^ 63 ≤ i) (hhi : i < (2 : Int) ^ 63) :
    parseValue (fuel + 4)
        ('\x7b' :: (encodeField { name := "Type", tag := "type", value := .string t } ++
          ',' :: (encodeField { name := "ID", tag := "id", value := .int i } ++
            '\x7d' :: rest))) =
      some (JSON.obj [("type", JSON.str t), ("id", JSON.num i)], rest) := by
  have h := parseValue_formatInt fuel i '\x7d' rest hlo hhi isDigit_brace
  rcases ht with rfl | rfl
  · rw [parseValue]
    simp [skipWS, isDigit, encodeField, StructField.key, encodeValue, encodeString, encodeChar]
    rw [parseMembers]
    simp [skipWS, readString]
    rw [parseValue]
    simp [skipWS, isDigit, readString]
    rw [parseMembers]
    simp [skipWS, readString, h]
  · rw [parseValue]
    simp [skipWS, isDigit, encodeField, StructField.key, encodeValue, encodeString, encodeChar]
    rw [parseMembers]
    simp [skipWS, readString]
    rw [parseValue]
    simp [skipWS, isDigit, readString]
    rw [parseMembers]
    simp [skipWS, readString, h]

theorem copyElement_regular (e rest out : List Char) (he : '/' ∉ e)
    (hr : rest = [] ∨ ∃ r, rest = '/' :: r) :
    copyElement (e ++ rest) out = (rest, e.reverse ++ out) := by
  induction e generalizing out with
  | nil =>
    rcases hr with rfl | ⟨r, rfl⟩ <;> simp [copyElement]
  | cons c cs ih =>
    have hc : c ≠ '/' := fun h => he (by simp [h])
    have hcs : '/' ∉ cs := fun h => he (by simp [h])
    simp [copyElement, hc, ih _ hcs]

theorem slashed_shape (es : List (List Char)) :
    slashed es = [] ∨ ∃ r, slashed es = '/' :: r := by
  cases es with
  | nil => exact Or.inl rfl
  | cons e es => exact Or.inr ⟨_, rfl⟩

theorem cleanLoop_element (fuel : Nat) (e rest out : List Char) (dotdot : Nat)
    (he : regularElement e) (hr : rest = [] ∨ ∃ r, rest = '/' :: r) :
    cleanLoop false (fuel + 1) (e ++ rest) out dotdot =
      cleanLoop false fuel rest (e.reverse ++ (if out.length ≠ 0 then '/' :: out else out))
        dotdot := by
  obtain ⟨hne, hsl, hdot, hdd⟩ := he
  cases e with
  | nil => exact absurd rfl hne
  | cons c cs =>
    have hc : c ≠ '/' := fun h => hsl (by simp [h])
    have hcs : '/' ∉ cs := fun h => hsl (by simp [h])
    have hcopy := copyElement_regular (c :: cs) rest
      (if out.length ≠ 0 then '/' :: out else out) hsl hr
    have h2 : ¬ (c = '.' ∧ (cs ++ rest = [] ∨ (cs ++ rest).head? = some '/')) := by
      rintro ⟨rfl, h⟩
      cases cs with
      | nil => exact hdot rfl
      | cons d ds =>
        rcases h with h | h
        · simp at h
        · simp at h; exact hcs (by simp [h])
    have h3 : ¬ (c = '.' ∧ (cs ++ rest).head? = some '.' ∧
        ((cs ++ rest).tail = [] ∨ (cs ++ rest).tail.head? = some '/')) := by
      rintro ⟨rfl, h, h'⟩
      cases cs with
      | nil =>
        rcases hr with rfl | ⟨r, rfl⟩ <;> simp at h
      | cons d ds =>
        simp at h
        subst h
        cases ds with
        | nil => exact hdd rfl
        | cons x xs =>
          rcases h' with h' | h'
          · simp at h'
          · simp at h'; exact hcs (by simp [h'])
    rw [List.cons_append, cleanLoop]
    simp only [hc, if_false, h2, h3]
    rw [← List.cons_append]
    simp only [Bool.false_eq_true, false_and, true_and, false_or, hcopy]

theorem cleanLoop_slashed (es : List (List Char)) (fuel : Nat) (out : List Char) (dotdot : Nat)
    (hes : ∀ e ∈ es, regularElement e) (hfuel : (slashed es).length ≤ fuel) (hout : out ≠ []) :
    cleanLoop false fuel (slashed es) out dotdot = (slashed es).reverse ++ out := by
  induction es generalizing fuel out with
  | nil => cases fuel <;> simp [slashed, cleanLoop]
  | cons e es ih =>
    have he : regularElement e := hes e (by simp)
    have hlen : 1 ≤ e.length := by
      rcases e with _ | ⟨c, cs⟩
      · exact absurd rfl he.1
      · simp
    simp only [slashed, List.length_cons, List.length_append] at hfuel
    obtain ⟨k, rfl⟩ : ∃ k, fuel = k + 2 := ⟨fuel - 2, by omega⟩
    have hout' : out.length ≠ 0 := by simpa using hout
    rw [slashed, cleanLoop]
    simp only [if_true]
    rw [cleanLoop_element k e (slashed es) out dotdot he (slashed_shape es)]
    rw [ih k _ (fun x hx => hes x (by simp [hx])) (by omega) (by simp [he.1])]
    simp [hout']

theorem pathClean_regular (e : List Char) (es : List (List Char)) (he : regularElement e)
    (hes : ∀ x ∈ es, regularElement x) :
    pathClean (e ++ slashed es) = e ++ slashed es := by
  have hne := he.1
  cases e with
  | nil => exact absurd rfl hne
  | cons c cs =>
    have hc : c ≠ '/' := fun h => he.2.1 (by simp [h])
    have h1 := cleanLoop_element ((cs ++ slashed es).length) (c :: cs) (slashed es) [] 0 he
      (slashed_shape es)
    have h2 := cleanLoop_slashed es (cs ++ slashed es).length ((c :: cs).reverse) 0 hes
      (by simp) (by simp)
    simp only [List.cons_append, pathClean, hc, decide_False, Bool.false_eq_true, if_false,
      List.length_cons]
    rw [← List.cons_append, h1]
    simp only [List.length_nil, ne_eq, not_true_eq_false, if_false, List.append_nil]
    rw [h2]
    simp

theorem slashed_append (es fs : List (List Char)) :
    slashed (es ++ fs) = slashed es ++ slashed fs := by
  induction es with
  | nil => rfl
  | cons e es ih => simp [slashed, ih]

theorem regularElement_symbol (symbol : String) (hne : symbol ≠ "") (hsl : '/' ∉ symbol.data)
    (hdot : symbol ≠ ".") (hdd : symbol ≠ "..") : regularElement symbol.data := by
  refine ⟨?_, hsl, ?_, ?_⟩
  · intro h; exact hne (String.ext h)
  · intro h; exact hdot (String.ext h)
  · intro h; exact hdd (String.ext h)

theorem joinBuf_symbol (base symbol : String) (hb : base ≠ "") :
    joinBuf [base, symbol] [] = base.data ++ '/' :: symbol.data ∧
      joinBuf [base, symbol, "hist"] [] = base.data ++ '/' :: symbol.data ++ "/hist".data := by
  have hlen : 0 < base.length := by
    rcases base with ⟨_ | ⟨c, cs⟩⟩
    · exact absurd rfl hb
    · simp [String.length]
  constructor
  · simp [joinBuf, hb, hlen]
  · simp [joinBuf, hb, hlen]

/-- Go `path.Join(base, symbol)` and `path.Join(base, symbol, "hist")` for a base
made of regular elements and a regular symbol. -/
theorem pathJoin_symbol (base symbol : String) (e : List Char) (es : List (List Char))
    (hb : base.data = e ++ slashed es) (he : regularElement e)
    (hes : ∀ x ∈ es, regularElement x) (hs : regularElement symbol.data) :
    pathJoin [base, symbol] = base ++ "/" ++ symbol ∧
      pathJoin [base, symbol, "hist"] = base ++ "/" ++ symbol ++ "/hist" := by
  have hh : regularElement "hist".data := by unfold regularElement; decide
  have hbne : base ≠ "" := by
    intro h
    rw [h] at hb
    rcases e with _ | ⟨c, cs⟩
    · exact he.1 rfl
    · simp at hb
  have hblen : 0 < base.length := by
    rcases base with ⟨_ | ⟨c, cs⟩⟩
    · exact absurd rfl hbne
    · simp [String.length]
  obtain ⟨hj1, hj2⟩ := joinBuf_symbol base symbol hbne
  have h1 := pathClean_regular e (es ++ [symbol.data]) he
    (by intro x hx; simp at hx; rcases hx with hx | rfl; exact hes x hx; exact hs)
  have h2 := pathClean_regular e (es ++ [symbol.data, "hist".data]) he
    (by intro x hx; simp at hx; rcases hx with hx | rfl | rfl; exact hes x hx; exact hs; exact hh)
  simp only [slashed_append, slashed, List.append_nil, ← List.append_assoc, ← hb] at h1 h2
  have hsz1 : ¬ ((List.map String.length [base, symbol]).sum = 0) := by simp; omega
  have hsz2 : ¬ ((List.map String.length [base, symbol, "hist"]).sum = 0) := by simp; omega
  constructor
  · simp only [pathJoin, hsz1, if_false, hj1, h1]
    apply String.ext
    simp
  · simp only [pathJoin, hsz2, if_false, hj2]
    rw [show base.data ++ '/' :: symbol.data ++ "/hist".data =
      base.data ++ '/' :: (symbol.data ++ '/' :: "hist".data) by simp, h2]
    apply String.ext
    simp

theorem pathJoin_funding (symbol : String) (hne : symbol ≠ "") (hsl : '/' ∉ symbol.data)
    (hdot : symbol ≠ ".") (hdd : symbol ≠ "..") :
    (pathJoin ["funding/offers", symbol] = "funding/offers/" ++ symbol ∧
      pathJoin ["funding/offers", symbol, "hist"] = "funding/offers/" ++ symbol ++ "/hist") ∧
    (pathJoin ["funding/loans", symbol] = "funding/loans/" ++ symbol ∧
      pathJoin ["funding/loans", symbol, "hist"] = "funding/loans/" ++ symbol ++ "/hist") ∧
    (pathJoin ["funding/credits", symbol] = "funding/credits/" ++ symbol ∧
      pathJoin ["funding/credits", symbol, "hist"] = "funding/credits/" ++ symbol ++ "/hist") ∧
    (pathJoin ["funding/trades", symbol] = "funding/trades/" ++ symbol ∧
      pathJoin ["funding/trades", symbol, "hist"] = "funding/trades/" ++ symbol ++ "/hist") := by
  have hs := regularElement_symbol symbol hne hsl hdot hdd
  have hf : regularElement "funding".data := by unfold regularElement; decide
  have ho : ∀ x ∈ ["offers".data], regularElement x := by
    intro x hx; rw [List.mem_singleton.mp hx]; unfold regularElement; decide
  have hl : ∀ x ∈ ["loans".data], regularElement x := by
    intro x hx; rw [List.mem_singleton.mp hx]; unfold regularElement; decide
  have hc : ∀ x ∈ ["credits".data], regularElement x := by
    intro x hx; rw [List.mem_singleton.mp hx]; unfold regularElement; decide
  have ht : ∀ x ∈ ["trades".data], regularElement x := by
    intro x hx; rw [List.mem_singleton.mp hx]; unfold regularElement; decide
  exact ⟨pathJoin_symbol "funding/offers" symbol _ _ rfl hf ho hs,
    pathJoin_symbol "funding/loans" symbol _ _ rfl hf hl hs,
    pathJoin_symbol "funding/credits" symbol _ _ rfl hf hc hs,
    pathJoin_symbol "funding/trades" symbol _ _ rfl hf ht hs⟩

/-! ## The encoders of package `fundingoffer` -/

theorem CancelAllRequest_ToJSON_eq (cr : CancelAllRequest) :
    cr.ToJSON = .ok "\x7b\x7d" ∧ cr.MarshalJSON = .ok "[0, \"foc\", null, \x7b\x7d]" :=
  ⟨rfl, rfl⟩

/-- C1. For every `int64` ID, `CancelRequest.ToJSON` returns no error; the
bytes are `{"id":` followed by `strconv.FormatInt(ID, 10)` and `}`, and they
read back as the JSON object with the single member `"id"` whose value is the
number ID.  For ID 12345 the result is the JSON value of the text
`{"id": 12345}`. -/
theorem cancelRequest_toJSON_is_id_object (id : Int)
    (hlo : -(2 : Int) ^ 63 ≤ id) (hhi : id < (2 : Int) ^ 63) :
    (∃ bytes, CancelRequest.ToJSON { ID := id } = .ok bytes ∧
        bytes = "\x7b\"id\":" ++ String.mk (formatInt id) ++ "\x7d" ∧
        parseJSON bytes = some (JSON.obj [("id", JSON.num id)]) ∧
        (parseJSON bytes).bind JSON.memberCount = some 1) ∧
      CancelRequest.ToJSON { ID := 12345 } = .ok "\x7b\"id\":12345\x7d" ∧
      jsonOf (CancelRequest.ToJSON { ID := 12345 }) = parseJSON "\x7b\"id\": 12345\x7d" := by
  have hp := CancelRequest_ToJSON_parse { ID := id } hlo hhi
  rw [CancelRequest_ToJSON_eq] at hp
  simp only [jsonOf] at hp
  refine ⟨⟨_, CancelRequest_ToJSON_eq _, ?_, hp, ?_⟩, rfl, rfl⟩
  · apply String.ext
    simp
  · rw [hp]
    rfl

theorem cancelRequest_toJSON_is_id_object_witness :
    (-(2 : Int) ^ 63 ≤ 12345 ∧ (12345 : Int) < (2 : Int) ^ 63) ∧
      ∃ bytes, CancelRequest.ToJSON { ID := 12345 } = .ok bytes ∧
        parseJSON bytes = some (JSON.obj [("id", JSON.num 12345)]) :=
  ⟨⟨by decide, by decide⟩,
    match (cancelRequest_toJSON_is_id_object 12345 (by decide) (by decide)).1 with
    | ⟨bytes, h1, _, h3, _⟩ => ⟨bytes, h1, h3⟩⟩

/-- C2. For every `CancelRequest` and every `CancelAllRequest`, `MarshalJSON`
returns no error and its output is `[0, "foc", null, ` followed by the bytes
of `ToJSON` and `]`; as JSON it is an array of four elements: the number 0,
the string `"foc"`, `null`, and the object that `ToJSON` produces. -/
theorem marshalJSON_wraps_toJSON (cr : CancelRequest) (ca : CancelAllRequest)
    (hlo : -(2 : Int) ^ 63 ≤ cr.ID) (hhi : cr.ID < (2 : Int) ^ 63) :
    (∃ b payload, cr.ToJSON = .ok b ∧ cr.MarshalJSON = .ok ("[0, \"foc\", null, " ++ b ++ "]") ∧
        jsonOf cr.ToJSON = some payload ∧
        jsonOf cr.MarshalJSON =
          some (JSON.arr [JSON.num 0, JSON.str "foc", JSON.null, payload])) ∧
      (∃ b payload, ca.ToJSON = .ok b ∧ ca.MarshalJSON = .ok ("[0, \"foc\", null, " ++ b ++ "]") ∧
        jsonOf ca.ToJSON = some payload ∧
        jsonOf ca.MarshalJSON =
          some (JSON.arr [JSON.num 0, JSON.str "foc", JSON.null, payload])) := by
  constructor
  · exact ⟨_, _, CancelRequest_ToJSON_eq cr, rfl, CancelRequest_ToJSON_parse cr hlo hhi,
      CancelRequest_MarshalJSON_parse cr hlo hhi⟩
  · exact ⟨_, JSON.obj [], rfl, rfl, rfl, rfl⟩

theorem marshalJSON_wraps_toJSON_witness :
    (-(2 : Int) ^ 63 ≤ (-7) ∧ (-7 : Int) < (2 : Int) ^ 63) ∧
      ∃ b payload, CancelRequest.ToJSON { ID := -7 } = .ok b ∧
        CancelRequest.MarshalJSON { ID := -7 } = .ok ("[0, \"foc\", null, " ++ b ++ "]") ∧
        jsonOf (CancelRequest.ToJSON { ID := -7 }) = some payload ∧
        jsonOf (CancelRequest.MarshalJSON { ID := -7 }) =
          some (JSON.arr [JSON.num 0, JSON.str "foc", JSON.null, payload]) :=
  ⟨⟨by decide, by decide⟩,
    (marshalJSON_wraps_toJSON { ID := -7 } { Currency := "USD" } (by decide) (by decide)).1⟩

/-- C3, at Currency = "USD": `CancelAllRequest.ToJSON` returns `{}`, an object
without a `currency` member, and `MarshalJSON` returns `[0, "foc", null, {}]`,
which is not the JSON value of `[0, "foc", null, {"currency": "USD"}]`. -/
theorem cancelAllRequest_omits_currency :
    CancelAllRequest.ToJSON { Currency := "USD" } = .ok "\x7b\x7d" ∧
      (jsonOf (CancelAllRequest.ToJSON { Currency := "USD" })).bind (JSON.member "currency") =
        none ∧
      CancelAllRequest.MarshalJSON { Currency := "USD" } = .ok "[0, \"foc\", null, \x7b\x7d]" ∧
      jsonOf (CancelAllRequest.MarshalJSON { Currency := "USD" }) =
        some (JSON.arr [JSON.num 0, JSON.str "foc", JSON.null, JSON.obj []]) ∧
      parseJSON "[0, \"foc\", null, \x7b\"currency\": \"USD\"\x7d]" =
        some (JSON.arr [JSON.num 0, JSON.str "foc", JSON.null,
          JSON.obj [("currency", JSON.str "USD")]]) :=
  ⟨rfl, rfl, rfl, rfl, rfl⟩

/-- C6. For every `CancelRequest` with `int64` ID `n`, reading the `id` member
of the object returned by `ToJSON` yields `n`, and so does reading it from the
fourth element of the envelope returned by `MarshalJSON`; two requests with
equal `ToJSON` bytes, or equal `MarshalJSON` bytes, have equal IDs. -/
theorem cancelRequest_id_round_trip (n : Int)
    (hlo : -(2 : Int) ^ 63 ≤ n) (hhi : n < (2 : Int) ^ 63) :
    (jsonOf (CancelRequest.ToJSON { ID := n })).bind decodeID = some n ∧
      ((jsonOf (CancelRequest.MarshalJSON { ID := n })).bind (JSON.element 3)).bind decodeID =
        some n ∧
      (∀ m : Int, -(2 : Int) ^ 63 ≤ m → m < (2 : Int) ^ 63 →
        CancelRequest.ToJSON { ID := m } = CancelRequest.ToJSON { ID := n } → m = n) ∧
      (∀ m : Int, -(2 : Int) ^ 63 ≤ m → m < (2 : Int) ^ 63 →
        CancelRequest.MarshalJSON { ID := m } = CancelRequest.MarshalJSON { ID := n } →
          m = n) := by
  have hdec : ∀ k : Int, -(2 : Int) ^ 63 ≤ k → k < (2 : Int) ^ 63 →
      decodeID (JSON.obj [("id", JSON.num k)]) = some k := by
    intro k h1 h2
    simp only [decodeID, JSON.member, List.lookup, beq_self_eq_true]
    rw [if_pos ⟨h1, h2⟩]
  have h1 : ∀ k : Int, -(2 : Int) ^ 63 ≤ k → k < (2 : Int) ^ 63 →
      (jsonOf (CancelRequest.ToJSON { ID := k })).bind decodeID = some k := by
    intro k hk1 hk2
    rw [CancelRequest_ToJSON_parse { ID := k } hk1 hk2]
    exact hdec k hk1 hk2
  have h2 : ∀ k : Int, -(2 : Int) ^ 63 ≤ k → k < (2 : Int) ^ 63 →
      ((jsonOf (CancelRequest.MarshalJSON { ID := k })).bind (JSON.element 3)).bind decodeID =
        some k := by
    intro k hk1 hk2
    rw [CancelRequest_MarshalJSON_parse { ID := k } hk1 hk2]
    exact hdec k hk1 hk2
  refine ⟨h1 n hlo hhi, h2 n hlo hhi, ?_, ?_⟩
  · intro m hm1 hm2 heq
    have := h1 m hm1 hm2
    rw [heq, h1 n hlo hhi] at this
    exact (Option.some.inj this).symm
  · intro m hm1 hm2 heq
    have := h2 m hm1 hm2
    rw [heq, h2 n hlo hhi] at this
    exact (Option.some.inj this).symm

theorem cancelRequest_id_round_trip_witness :
    (-(2 : Int) ^ 63 ≤ -9223372036854775808 ∧ (-9223372036854775808 : Int) < (2 : Int) ^ 63) ∧
      (jsonOf (CancelRequest.ToJSON { ID := -9223372036854775808 })).bind decodeID =
        some (-9223372036854775808) ∧
      ((jsonOf (CancelRequest.MarshalJSON { ID := -9223372036854775808 })).bind
        (JSON.element 3)).bind decodeID = some (-9223372036854775808) :=
  ⟨⟨by decide, by decide⟩,
    (cancelRequest_id_round_trip (-9223372036854775808) (by decide) (by decide)).1,
    (cancelRequest_id_round_trip (-9223372036854775808) (by decide) (by decide)).2.1⟩

end Codec

/-! ## The funding service -/

namespace Rest

variable {S : Sig}

/-- C4. For every `KeepFundingRequest` whose Type is neither `"credit"` nor
`"loan"`, and every ID, `KeepFunding` returns a nil notification and the
validation error, and leaves the collaborators untouched: no call of the
request factory or of the dispatch call is recorded. -/
theorem keepFunding_rejects_other_types (env : Env S) (args : KeepFundingRequest)
    (w : World S) (hc : args.Type_ ≠ "credit") (hl : args.Type_ ≠ "loan") :
    FundingService.KeepFunding env args w =
        ((none, some ("Expected type: credit or loan, got: " ++ args.Type_)), w) ∧
      (FundingService.KeepFunding env args (World.start w.state)).2.log = [] := by
  simp [FundingService.KeepFunding, hc, hl, World.start]

theorem keepFunding_rejects_other_types_witness :
    (("margin" : String) ≠ "credit" ∧ ("margin" : String) ≠ "loan") ∧
      FundingService.KeepFunding (demoEnv none none none) { Type_ := "margin", ID := 5 }
          (World.start 0) =
        ((none, some "Expected type: credit or loan, got: margin"), World.start 0) :=
  ⟨⟨by decide, by decide⟩,
    (keepFunding_rejects_other_types (demoEnv none none none) { Type_ := "margin", ID := 5 }
      (World.start 0) (by decide) (by decide)).1⟩

theorem keepFunding_marshal (args : KeepFundingRequest)
    (ht : args.Type_ = "credit" ∨ args.Type_ = "loan") :
    args.marshal = .ok ("\x7b\"type\":\"" ++ args.Type_ ++ "\",\"id\":" ++
      String.mk (formatInt args.ID) ++ "\x7d") := by
  rcases args with ⟨t, i⟩
  rcases ht with h | h <;> simp only at h <;> subst h <;>
    simp [KeepFundingRequest.marshal, jsonMarshal, StructField.exported, encodeMembers,
      encodeField, StructField.key, encodeValue, encodeString, encodeChar, String.ext_iff]

theorem keepFunding_marshal_parse (args : KeepFundingRequest)
    (ht : args.Type_ = "credit" ∨ args.Type_ = "loan")
    (hlo : -(2 : Int) ^ 63 ≤ args.ID) (hhi : args.ID < (2 : Int) ^ 63) :
    jsonOf args.marshal =
      some (JSON.obj [("type", JSON.str args.Type_), ("id", JSON.num args.ID)]) := by
  have h := parseValue_keepObject
    ((encodeField { name := "Type", tag := "type", value := .string args.Type_ }).length +
      (encodeField { name := "ID", tag := "id", value := .int args.ID }).length) args.Type_
    args.ID [] ht hlo hhi
  simp only [jsonOf, KeepFundingRequest.marshal, jsonMarshal, parseJSON]
  have hf : List.filter StructField.exported
      [{ name := "Type", tag := "type", value := .string args.Type_ },
       { name := "ID", tag := "id", value := .int args.ID }] =
      [{ name := "Type", tag := "type", value := .string args.Type_ },
       { name := "ID", tag := "id", value := .int args.ID }] := by
    simp [StructField.exported]
  rw [hf]
  simp only [encodeMembers, String.length, List.length_cons, List.length_append,
    List.length_nil, List.append_assoc, List.cons_append, List.nil_append]
  rw [show (encodeField { name := "Type", tag := "type", value := .string args.Type_ }).length +
      ((encodeField { name := "ID", tag := "id", value := .int args.ID }).length + (0 + 1) + 1) +
      1 + 1 =
    (encodeField { name := "Type", tag := "type", value := .string args.Type_ }).length +
      (encodeField { name := "ID", tag := "id", value := .int args.ID }).length + 4 by omega]
  rw [h]
  simp [skipWS]

/-- C5. For every `KeepFundingRequest` with Type `"credit"` or `"loan"` and
every ID, `KeepFunding` calls the request factory once, with the body
`{"type":"<Type>","id":<ID>}`: the JSON object with the two members `"type"`,
the string Type, and `"id"`, the number ID. -/
theorem keepFunding_body (env : Env S) (args : KeepFundingRequest) (st : S.State)
    (ht : args.Type_ = "credit" ∨ args.Type_ = "loan")
    (hlo : -(2 : Int) ^ 63 ≤ args.ID) (hhi : args.ID < (2 : Int) ^ 63) :
    ∃ body, args.marshal = .ok body ∧
      body = "\x7b\"type\":\"" ++ args.Type_ ++ "\",\"id\":" ++
        String.mk (formatInt args.ID) ++ "\x7d" ∧
      parseJSON body =
        some (JSON.obj [("type", JSON.str args.Type_), ("id", JSON.num args.ID)]) ∧
      factoryBodies (FundingService.KeepFunding env args (World.start st)).2.log =
        [some body] := by
  have hm := keepFunding_marshal args ht
  have hp := keepFunding_marshal_parse args ht hlo hhi
  rw [hm] at hp
  refine ⟨_, hm, rfl, hp, ?_⟩
  have hv : ¬ (args.Type_ ≠ "credit" ∧ args.Type_ ≠ "loan") := by
    rcases ht with h | h <;> simp [h]
  simp only [FundingService.KeepFunding, hv, if_false, hm, Env.newRequestWithBytes,
    Env.request, Env.decodeWith, World.start]
  (repeat' split) <;> (try simp only [Prod.mk.injEq] at *) <;> (try casesm* _ ∧ _) <;>
    (try subst_vars) <;> simp_all [factoryBodies]

theorem keepFunding_body_witness :
    ((("loan" : String) = "credit" ∨ ("loan" : String) = "loan") ∧
        -(2 : Int) ^ 63 ≤ 41215 ∧ (41215 : Int) < (2 : Int) ^ 63) ∧
      ∃ body, KeepFundingRequest.marshal { Type_ := "loan", ID := 41215 } = .ok body ∧
        body = "\x7b\"type\":\"loan\",\"id\":41215\x7d" ∧
        factoryBodies (FundingService.KeepFunding (demoEnv none none none)
          { Type_ := "loan", ID := 41215 } (World.start 0)).2.log = [some body] :=
  ⟨⟨by decide, by decide, by decide⟩,
    match keepFunding_body (demoEnv none none none) { Type_ := "loan", ID := 41215 } 0
      (by decide) (by decide) (by decide) with
    | ⟨body, h1, h2, _, h4⟩ => ⟨body, h1, h2.trans (by decide), h4⟩⟩

/-- C7. Every operation builds its authenticated request with one permission,
fixed by the operation alone, for every argument: each of the seven queries
calls the request factory exactly once, with `PermissionRead`; each of the
three mutating operations calls it exactly once, with `PermissionWrite`, when
its body is encoded (`ToJSON` returns no error, the type of a keep-funding
request is `credit` or `loan`), and not at all otherwise. -/
theorem operations_use_fixed_permission (env : Env S) (st : S.State) (symbol : String)
    (fo : S.FundingOfferRequest) (fc : S.FundingOfferCancelRequest)
    (args : KeepFundingRequest) :
    (factoryPerms (FundingService.Offers env symbol (World.start st)).2.log =
          [Permission.PermissionRead] ∧
        factoryPerms (FundingService.OfferHistory env symbol (World.start st)).2.log =
          [Permission.PermissionRead] ∧
        factoryPerms (FundingService.Loans env symbol (World.start st)).2.log =
          [Permission.PermissionRead] ∧
        factoryPerms (FundingService.LoansHistory env symbol (World.start st)).2.log =
          [Permission.PermissionRead] ∧
        factoryPerms (FundingService.Credits env symbol (World.start st)).2.log =
          [Permission.PermissionRead] ∧
        factoryPerms (FundingService.CreditsHistory env symbol (World.start st)).2.log =
          [Permission.PermissionRead] ∧
        factoryPerms (FundingService.Trades env symbol (World.start st)).2.log =
          [Permission.PermissionRead]) ∧
      (factoryPerms (FundingService.SubmitOffer env fo (World.start st)).2.log =
          (match (env.offerToJSON fo).2 with
            | none => [Permission.PermissionWrite]
            | some _ => []) ∧
        factoryPerms (FundingService.CancelOffer env fc (World.start st)).2.log =
          (match (env.cancelToJSON fc).2 with
            | none => [Permission.PermissionWrite]
            | some _ => []) ∧
        factoryPerms (FundingService.KeepFunding env args (World.start st)).2.log =
          (if args.Type_ = "credit" ∨ args.Type_ = "loan" then [Permission.PermissionWrite]
            else [])) := by
  refine ⟨⟨?_, ?_, ?_, ?_, ?_, ?_, ?_⟩, ?_, ?_, ?_⟩ <;>
    simp only [FundingService.Offers, FundingService.OfferHistory,
      FundingService.Loans, FundingService.LoansHistory, FundingService.Credits,
      FundingService.CreditsHistory, FundingService.Trades, FundingService.SubmitOffer,
      FundingService.CancelOffer, FundingService.KeepFunding, KeepFundingRequest.marshal,
      jsonMarshal, Env.newRequest, Env.newRequestWithBytes,
      Env.request, Env.decodeWith, World.start] <;>
    (repeat' split) <;> (try simp only [Prod.mk.injEq] at *) <;> (try casesm* _ ∧ _) <;>
    (try subst_vars) <;> simp_all [factoryPerms]

theorem operations_use_fixed_permission_witness :
    factoryPerms (FundingService.Trades (demoEnv none none none) "fUSD"
        (World.start 0)).2.log = [Permission.PermissionRead] ∧
      factoryPerms (FundingService.CancelOffer (demoEnv none none none) 7
        (World.start 0)).2.log = [Permission.PermissionWrite] ∧
      factoryPerms (FundingService.KeepFunding (demoEnv none none none)
        { Type_ := "margin", ID := 3 } (World.start 0)).2.log = [] :=
  ⟨(operations_use_fixed_permission (demoEnv none none none) 0 "fUSD" 1 7
      { Type_ := "margin", ID := 3 }).1.2.2.2.2.2.2,
    (operations_use_fixed_permission (demoEnv none none none) 0 "fUSD" 1 7
      { Type_ := "margin", ID := 3 }).2.2.1,
    (operations_use_fixed_permission (demoEnv none none none) 0 "fUSD" 1 7
      { Type_ := "margin", ID := 3 }).2.2.2⟩

theorem queries_propagate_factory_error (env : Env S) (symbol : String) :
    PropagatesFactoryError
        (env.NewAuthenticatedRequest Permission.PermissionRead
          (pathJoin ["funding/offers", symbol]))
        (FundingService.Offers env symbol) ∧
      PropagatesFactoryError
        (env.NewAuthenticatedRequest Permission.PermissionRead
          (pathJoin ["funding/offers", symbol, "hist"]))
        (FundingService.OfferHistory env symbol) ∧
      PropagatesFactoryError
        (env.NewAuthenticatedRequest Permission.PermissionRead
          (pathJoin ["funding/loans", symbol]))
        (FundingService.Loans env symbol) ∧
      PropagatesFactoryError
        (env.NewAuthenticatedRequest Permission.PermissionRead
          (pathJoin ["funding/loans", symbol, "hist"]))
        (FundingService.LoansHistory env symbol) ∧
      PropagatesFactoryError
        (env.NewAuthenticatedRequest Permission.PermissionRead
          (pathJoin ["funding/credits", symbol]))
        (FundingService.Credits env symbol) ∧
      PropagatesFactoryError
        (env.NewAuthenticatedRequest Permission.PermissionRead
          (pathJoin ["funding/credits", symbol, "hist"]))
        (FundingService.CreditsHistory env symbol) ∧
      PropagatesFactoryError
        (env.NewAuthenticatedRequest Permission.PermissionRead
          (pathJoin ["funding/trades", symbol, "hist"]))
        (FundingService.Trades env symbol) := by
  refine ⟨?_, ?_, ?_, ?_, ?_, ?_, ?_⟩ <;> intro st req e st1 hf <;>
    simp [FundingService.Offers, FundingService.OfferHistory,
      FundingService.Loans, FundingService.LoansHistory, FundingService.Credits,
      FundingService.CreditsHistory, FundingService.Trades, Env.newRequest, World.start, hf,
      dispatchErrors, decodeCount]

theorem queries_propagate_dispatch_error (env : Env S) (symbol : String) :
    PropagatesDispatchError env
        (env.NewAuthenticatedRequest Permission.PermissionRead
          (pathJoin ["funding/offers", symbol]))
        (FundingService.Offers env symbol) ∧
      PropagatesDispatchError env
        (env.NewAuthenticatedRequest Permission.PermissionRead
          (pathJoin ["funding/offers", symbol, "hist"]))
        (FundingService.OfferHistory env symbol) ∧
      PropagatesDispatchError env
        (env.NewAuthenticatedRequest Permission.PermissionRead
          (pathJoin ["funding/loans", symbol]))
        (FundingService.Loans env symbol) ∧
      PropagatesDispatchError env
        (env.NewAuthenticatedRequest Permission.PermissionRead
          (pathJoin ["funding/loans", symbol, "hist"]))
        (FundingService.LoansHistory env symbol) ∧
      PropagatesDispatchError env
        (env.NewAuthenticatedRequest Permission.PermissionRead
          (pathJoin ["funding/credits", symbol]))
        (FundingService.Credits env symbol) ∧
      PropagatesDispatchError env
        (env.NewAuthenticatedRequest Permission.PermissionRead
          (pathJoin ["funding/credits", symbol, "hist"]))
        (FundingService.CreditsHistory env symbol) ∧
      PropagatesDispatchError env
        (env.NewAuthenticatedRequest Permission.PermissionRead
          (pathJoin ["funding/trades", symbol, "hist"]))
        (FundingService.Trades env symbol) := by
  refine ⟨?_, ?_, ?_, ?_, ?_, ?_, ?_⟩ <;> intro st req st1 raw e st2 hf hd <;>
    simp [FundingService.Offers, FundingService.OfferHistory,
      FundingService.Loans, FundingService.LoansHistory, FundingService.Credits,
      FundingService.CreditsHistory, FundingService.Trades, Env.newRequest, Env.request,
      World.start, hf, hd, dispatchErrors, decodeCount]

theorem mutations_propagate_errors (env : Env S) (fo : S.FundingOfferRequest)
    (fc : S.FundingOfferCancelRequest) (args : KeepFundingRequest) :
    ((env.offerToJSON fo).2 = none →
        PropagatesFactoryError
            (env.NewAuthenticatedRequestWithBytes Permission.PermissionWrite
              (pathJoin ["funding/offer/submit"]) (env.offerToJSON fo).1)
            (FundingService.SubmitOffer env fo) ∧
          PropagatesDispatchError env
            (env.NewAuthenticatedRequestWithBytes Permission.PermissionWrite
              (pathJoin ["funding/offer/submit"]) (env.offerToJSON fo).1)
            (FundingService.SubmitOffer env fo)) ∧
      ((env.cancelToJSON fc).2 = none →
        PropagatesFactoryError
            (env.NewAuthenticatedRequestWithBytes Permission.PermissionWrite
              "funding/offer/cancel" (env.cancelToJSON fc).1)
            (FundingService.CancelOffer env fc) ∧
          PropagatesDispatchError env
            (env.NewAuthenticatedRequestWithBytes Permission.PermissionWrite
              "funding/offer/cancel" (env.cancelToJSON fc).1)
            (FundingService.CancelOffer env fc)) ∧
      (args.Type_ = "credit" ∨ args.Type_ = "loan" →
        ∃ body, args.marshal = .ok body ∧
          PropagatesFactoryError
            (env.NewAuthenticatedRequestWithBytes Permission.PermissionWrite
              (pathJoin ["funding", "keep"]) body)
            (FundingService.KeepFunding env args) ∧
          PropagatesDispatchError env
            (env.NewAuthenticatedRequestWithBytes Permission.PermissionWrite
              (pathJoin ["funding", "keep"]) body)
            (FundingService.KeepFunding env args)) := by
  refine ⟨?_, ?_, ?_⟩
  · intro hj
    have hj' : env.offerToJSON fo = ((env.offerToJSON fo).1, none) := by
      rw [← hj]
    constructor
    · intro st req e st1 hf
      rw [FundingService.SubmitOffer, hj']
      simp [Env.newRequestWithBytes, World.start, hf, dispatchErrors, decodeCount]
    · intro st req st1 raw e st2 hf hd
      rw [FundingService.SubmitOffer, hj']
      simp [Env.newRequestWithBytes, Env.request, World.start, hf, hd, dispatchErrors,
        decodeCount]
  · intro hj
    have hj' : env.cancelToJSON fc = ((env.cancelToJSON fc).1, none) := by
      rw [← hj]
    constructor
    · intro st req e st1 hf
      rw [FundingService.CancelOffer, hj']
      simp [Env.newRequestWithBytes, World.start, hf, dispatchErrors, decodeCount]
    · intro st req st1 raw e st2 hf hd
      rw [FundingService.CancelOffer, hj']
      simp [Env.newRequestWithBytes, Env.request, World.start, hf, hd, dispatchErrors,
        decodeCount]
  · intro ht
    have hv : ¬ (args.Type_ ≠ "credit" ∧ args.Type_ ≠ "loan") := by
      rcases ht with h | h <;> simp [h]
    refine ⟨_, rfl, ?_, ?_⟩
    · intro st req e st1 hf
      simp only [FundingService.KeepFunding, hv, if_false]
      simp [KeepFundingRequest.marshal, jsonMarshal] at hf ⊢
      simp [Env.newRequestWithBytes, World.start, hf, dispatchErrors, decodeCount]
    · intro st req st1 raw e st2 hf hd
      simp only [FundingService.KeepFunding, hv, if_false]
      simp [KeepFundingRequest.marshal, jsonMarshal] at hf ⊢
      simp [Env.newRequestWithBytes, Env.request, World.start, hf, hd, dispatchErrors,
        decodeCount]

theorem dispatch_at_most_once (env : Env S) (op : Operation S) (st : S.State) :
    (dispatchErrors (op.run env (World.start st)).2.log).length ≤ 1 := by
  cases op <;>
    simp only [Operation.run, toReply, FundingService.Offers, FundingService.OfferHistory,
      FundingService.Loans, FundingService.LoansHistory, FundingService.Credits,
      FundingService.CreditsHistory, FundingService.Trades, FundingService.SubmitOffer,
      FundingService.CancelOffer, FundingService.KeepFunding, KeepFundingRequest.marshal,
      jsonMarshal, Env.newRequest, Env.newRequestWithBytes,
      Env.request, Env.decodeWith, World.start] <;>
    (repeat' split) <;> (try simp only [Prod.mk.injEq] at *) <;> (try casesm* _ ∧ _) <;>
    (try subst_vars) <;> simp_all [dispatchErrors]

/-- C8. For every operation and input: when the request factory of the
environment (`NewAuthenticatedRequest` with the operation's permission and
path, or `NewAuthenticatedRequestWithBytes` with its permission, path and
encoded body) returns an error `e`, the operation returns nil and exactly `e`
and makes no dispatch call; when the factory succeeds and the dispatch call
`Request` of the environment returns an error `e`, the operation returns nil
and exactly `e` after that one dispatch call and calls no decoder; no
operation makes more than one dispatch call. -/
theorem operations_propagate_errors (env : Env S) (symbol : String)
    (fo : S.FundingOfferRequest) (fc : S.FundingOfferCancelRequest)
    (args : KeepFundingRequest) :
    (PropagatesFactoryError
          (env.NewAuthenticatedRequest Permission.PermissionRead
            (pathJoin ["funding/offers", symbol]))
          (FundingService.Offers env symbol) ∧
        PropagatesFactoryError
          (env.NewAuthenticatedRequest Permission.PermissionRead
            (pathJoin ["funding/offers", symbol, "hist"]))
          (FundingService.OfferHistory env symbol) ∧
        PropagatesFactoryError
          (env.NewAuthenticatedRequest Permission.PermissionRead
            (pathJoin ["funding/loans", symbol]))
          (FundingService.Loans env symbol) ∧
        PropagatesFactoryError
          (env.NewAuthenticatedRequest Permission.PermissionRead
            (pathJoin ["funding/loans", symbol, "hist"]))
          (FundingService.LoansHistory env symbol) ∧
        PropagatesFactoryError
          (env.NewAuthenticatedRequest Permission.PermissionRead
            (pathJoin ["funding/credits", symbol]))
          (FundingService.Credits env symbol) ∧
        PropagatesFactoryError
          (env.NewAuthenticatedRequest Permission.PermissionRead
            (pathJoin ["funding/credits", symbol, "hist"]))
          (FundingService.CreditsHistory env symbol) ∧
        PropagatesFactoryError
          (env.NewAuthenticatedRequest Permission.PermissionRead
            (pathJoin ["funding/trades", symbol, "hist"]))
          (FundingService.Trades env symbol)) ∧
      (PropagatesDispatchError env
          (env.NewAuthenticatedRequest Permission.PermissionRead
            (pathJoin ["funding/offers", symbol]))
          (FundingService.Offers env symbol) ∧
        PropagatesDispatchError env
          (env.NewAuthenticatedRequest Permission.PermissionRead
            (pathJoin ["funding/offers", symbol, "hist"]))
          (FundingService.OfferHistory env symbol) ∧
        PropagatesDispatchError env
          (env.NewAuthenticatedRequest Permission.PermissionRead
            (pathJoin ["funding/loans", symbol]))
          (FundingService.Loans env symbol) ∧
        PropagatesDispatchError env
          (env.NewAuthenticatedRequest Permission.PermissionRead
            (pathJoin ["funding/loans", symbol, "hist"]))
          (FundingService.LoansHistory env symbol) ∧
        PropagatesDispatchError env
          (env.NewAuthenticatedRequest Permission.PermissionRead
            (pathJoin ["funding/credits", symbol]))
          (FundingService.Credits env symbol) ∧
        PropagatesDispatchError env
          (env.NewAuthenticatedRequest Permission.PermissionRead
            (pathJoin ["funding/credits", symbol, "hist"]))
          (FundingService.CreditsHistory env symbol) ∧
        PropagatesDispatchError env
          (env.NewAuthenticatedRequest Permission.PermissionRead
            (pathJoin ["funding/trades", symbol, "hist"]))
          (FundingService.Trades env symbol)) ∧
      (((env.offerToJSON fo).2 = none →
          PropagatesFactoryError
              (env.NewAuthenticatedRequestWithBytes Permission.PermissionWrite
                (pathJoin ["funding/offer/submit"]) (env.offerToJSON fo).1)
              (FundingService.SubmitOffer env fo) ∧
            PropagatesDispatchError env
              (env.NewAuthenticatedRequestWithBytes Permission.PermissionWrite
                (pathJoin ["funding/offer/submit"]) (env.offerToJSON fo).1)
              (FundingService.SubmitOffer env fo)) ∧
        ((env.cancelToJSON fc).2 = none →
          PropagatesFactoryError
              (env.NewAuthenticatedRequestWithBytes Permission.PermissionWrite
                "funding/offer/cancel" (env.cancelToJSON fc).1)
              (FundingService.CancelOffer env fc) ∧
            PropagatesDispatchError env
              (env.NewAuthenticatedRequestWithBytes Permission.PermissionWrite
                "funding/offer/cancel" (env.cancelToJSON fc).1)
              (FundingService.CancelOffer env fc)) ∧
        (args.Type_ = "credit" ∨ args.Type_ = "loan" →
          ∃ body, args.marshal = .ok body ∧
            PropagatesFactoryError
              (env.NewAuthenticatedRequestWithBytes Permission.PermissionWrite
                (pathJoin ["funding", "keep"]) body)
              (FundingService.KeepFunding env args) ∧
            PropagatesDispatchError env
              (env.NewAuthenticatedRequestWithBytes Permission.PermissionWrite
                (pathJoin ["funding", "keep"]) body)
              (FundingService.KeepFunding env args))) ∧
      (∀ (op : Operation S) (st : S.State),
        (dispatchErrors (op.run env (World.start st)).2.log).length ≤ 1) :=
  ⟨queries_propagate_factory_error env symbol, queries_propagate_dispatch_error env symbol,
    mutations_propagate_errors env fo fc args, fun op st => dispatch_at_most_once env op st⟩

theorem operations_propagate_errors_witness :
    ((demoEnv (some "no credentials") none none).NewAuthenticatedRequest
          Permission.PermissionRead (pathJoin ["funding/offers", "fUSD", "hist"]) 0 =
        ((24, some "no credentials"), 1) ∧
      (demoEnv none (some "timeout") none).NewAuthenticatedRequest
          Permission.PermissionRead (pathJoin ["funding/loans", "fUSD"]) 0 =
        ((18, none), 1) ∧
      (demoEnv none (some "timeout") none).Request 18 1 = ((19, some "timeout"), 2)) ∧
      ((FundingService.OfferHistory (demoEnv (some "no credentials") none none) "fUSD"
          (World.start 0)).1 = (none, some "no credentials") ∧
        dispatchErrors (FundingService.OfferHistory (demoEnv (some "no credentials") none none)
          "fUSD" (World.start 0)).2.log = []) ∧
      ((FundingService.Loans (demoEnv none (some "timeout") none) "fUSD"
          (World.start 0)).1 = (none, some "timeout") ∧
        decodeCount (FundingService.Loans (demoEnv none (some "timeout") none) "fUSD"
          (World.start 0)).2.log = 0) :=
  ⟨⟨rfl, rfl, rfl⟩,
    match (operations_propagate_errors (demoEnv (some "no credentials") none none) "fUSD" 1 2
      { Type_ := "loan", ID := 3 }).1.2.1 0 24 "no credentials" 1 rfl with
    | ⟨h1, _, h3, _⟩ => ⟨h1, h3⟩,
    match (operations_propagate_errors (demoEnv none (some "timeout") none) "fUSD" 1 2
      { Type_ := "loan", ID := 3 }).2.1.2.2.1 0 18 1 19 "timeout" 2 rfl rfl with
    | ⟨h1, _, _, h4⟩ => ⟨h1, h4⟩⟩

/-- C9. For each of the seven snapshot queries, when the request factory and
the dispatch call of the environment succeed with the raw response `r`: if the
query's decoder in the environment (`NewFundingOfferSnapshotFromRaw` for
Offers and OfferHistory, `NewFundingLoanSnapshotFromRaw` for Loans and
LoansHistory, `NewFundingCreditSnapshotFromRaw` for Credits and
CreditsHistory, `fundingtrade.SnapshotFromRaw` for Trades) returns a snapshot
`s` and no error on `r`, the query returns `s` itself and no error; if it
returns an error `e`, the query returns nil and `e`, whatever value the
decoder returned with the error. -/
theorem queries_return_decoded_snapshot (env : Env S) (symbol : String) :
    ReturnsDecoded env
        (env.NewAuthenticatedRequest Permission.PermissionRead
          (pathJoin ["funding/offers", symbol]))
        env.NewFundingOfferSnapshotFromRaw (FundingService.Offers env symbol) ∧
      ReturnsDecoded env
        (env.NewAuthenticatedRequest Permission.PermissionRead
          (pathJoin ["funding/offers", symbol, "hist"]))
        env.NewFundingOfferSnapshotFromRaw (FundingService.OfferHistory env symbol) ∧
      ReturnsDecoded env
        (env.NewAuthenticatedRequest Permission.PermissionRead
          (pathJoin ["funding/loans", symbol]))
        env.NewFundingLoanSnapshotFromRaw (FundingService.Loans env symbol) ∧
      ReturnsDecoded env
        (env.NewAuthenticatedRequest Permission.PermissionRead
          (pathJoin ["funding/loans", symbol, "hist"]))
        env.NewFundingLoanSnapshotFromRaw (FundingService.LoansHistory env symbol) ∧
      ReturnsDecoded env
        (env.NewAuthenticatedRequest Permission.PermissionRead
          (pathJoin ["funding/credits", symbol]))
        env.NewFundingCreditSnapshotFromRaw (FundingService.Credits env symbol) ∧
      ReturnsDecoded env
        (env.NewAuthenticatedRequest Permission.PermissionRead
          (pathJoin ["funding/credits", symbol, "hist"]))
        env.NewFundingCreditSnapshotFromRaw (FundingService.CreditsHistory env symbol) ∧
      ReturnsDecoded env
        (env.NewAuthenticatedRequest Permission.PermissionRead
          (pathJoin ["funding/trades", symbol, "hist"]))
        env.SnapshotFromRaw (FundingService.Trades env symbol) := by
  refine ⟨?_, ?_, ?_, ?_, ?_, ?_, ?_⟩ <;> intro st req st1 raw st2 hf hd <;>
    (constructor
     · intro s hs
       simp [FundingService.Offers, FundingService.OfferHistory,
         FundingService.Loans, FundingService.LoansHistory, FundingService.Credits,
         FundingService.CreditsHistory, FundingService.Trades, Env.newRequest, Env.request,
         Env.decodeWith, World.start, hf, hd, hs]
     · intro x e hs
       simp [FundingService.Offers, FundingService.OfferHistory,
         FundingService.Loans, FundingService.LoansHistory, FundingService.Credits,
         FundingService.CreditsHistory, FundingService.Trades, Env.newRequest, Env.request,
         Env.decodeWith, World.start, hf, hd, hs])

theorem queries_return_decoded_snapshot_witness :
    ((demoEnv none none none).NewAuthenticatedRequest Permission.PermissionRead
          (pathJoin ["funding/credits", "fUSD"]) 0 = ((20, none), 1) ∧
      (demoEnv none none none).Request 20 1 = ((21, none), 2) ∧
      (demoEnv none none none).NewFundingCreditSnapshotFromRaw 21 = (some [21, 24], none) ∧
      (demoEnv none none (some "short row")).NewFundingCreditSnapshotFromRaw 21 =
        (some [21, 24], some "short row")) ∧
      (FundingService.Credits (demoEnv none none none) "fUSD" (World.start 0)).1 =
        (some [21, 24], none) ∧
      (FundingService.Credits (demoEnv none none (some "short row")) "fUSD"
        (World.start 0)).1 = (none, some "short row") :=
  ⟨⟨rfl, rfl, rfl, rfl⟩,
    ((queries_return_decoded_snapshot (demoEnv none none none) "fUSD").2.2.2.2.1
      0 20 1 21 2 rfl rfl).1 (some [21, 24]) rfl,
    ((queries_return_decoded_snapshot (demoEnv none none (some "short row")) "fUSD").2.2.2.2.1
      0 20 1 21 2 rfl rfl).2 (some [21, 24]) "short row" rfl⟩

theorem query_paths (env : Env S) (symbol : String) (st : S.State) :
    factoryPaths (FundingService.Offers env symbol (World.start st)).2.log =
        [pathJoin ["funding/offers", symbol]] ∧
      factoryPaths (FundingService.OfferHistory env symbol (World.start st)).2.log =
        [pathJoin ["funding/offers", symbol, "hist"]] ∧
      factoryPaths (FundingService.Loans env symbol (World.start st)).2.log =
        [pathJoin ["funding/loans", symbol]] ∧
      factoryPaths (FundingService.LoansHistory env symbol (World.start st)).2.log =
        [pathJoin ["funding/loans", symbol, "hist"]] ∧
      factoryPaths (FundingService.Credits env symbol (World.start st)).2.log =
        [pathJoin ["funding/credits", symbol]] ∧
      factoryPaths (FundingService.CreditsHistory env symbol (World.start st)).2.log =
        [pathJoin ["funding/credits", symbol, "hist"]] ∧
      factoryPaths (FundingService.Trades env symbol (World.start st)).2.log =
        [pathJoin ["funding/trades", symbol, "hist"]] := by
  refine ⟨?_, ?_, ?_, ?_, ?_, ?_, ?_⟩ <;>
    simp only [FundingService.Offers, FundingService.OfferHistory,
      FundingService.Loans, FundingService.LoansHistory, FundingService.Credits,
      FundingService.CreditsHistory, FundingService.Trades, Env.newRequest,
      Env.request, Env.decodeWith, World.start] <;>
    (repeat' split) <;> (try simp only [Prod.mk.injEq] at *) <;> (try casesm* _ ∧ _) <;>
    (try subst_vars) <;> simp_all [factoryPaths]

theorem mutating_paths (env : Env S) (st : S.State) (fo : S.FundingOfferRequest)
    (fc : S.FundingOfferCancelRequest) (args : KeepFundingRequest) :
    factoryPaths (FundingService.SubmitOffer env fo (World.start st)).2.log =
        (match (env.offerToJSON fo).2 with
          | none => ["funding/offer/submit"]
          | some _ => []) ∧
      factoryPaths (FundingService.CancelOffer env fc (World.start st)).2.log =
        (match (env.cancelToJSON fc).2 with
          | none => ["funding/offer/cancel"]
          | some _ => []) ∧
      factoryPaths (FundingService.KeepFunding env args (World.start st)).2.log =
        (if args.Type_ = "credit" ∨ args.Type_ = "loan" then ["funding/keep"] else []) := by
  have e1 : pathJoin ["funding/offer/submit"] = "funding/offer/submit" := by decide
  have e2 : pathJoin ["funding", "keep"] = "funding/keep" := by decide
  refine ⟨?_, ?_, ?_⟩ <;>
    simp only [FundingService.SubmitOffer, FundingService.CancelOffer,
      FundingService.KeepFunding, KeepFundingRequest.marshal, jsonMarshal,
      Env.newRequestWithBytes, Env.request, Env.decodeWith, World.start, e1, e2] <;>
    (repeat' split) <;> (try simp only [Prod.mk.injEq] at *) <;> (try casesm* _ ∧ _) <;>
    (try subst_vars) <;> simp_all [factoryPaths]

/-- C10. For a symbol that is not empty, has no `/` and is neither `.` nor
`..`, the seven queries hand the request factory the paths
`funding/offers/<symbol>`, `funding/loans/<symbol>`, `funding/credits/<symbol>`
and `funding/{offers,loans,credits,trades}/<symbol>/hist`; for the empty symbol
the symbol segment is dropped; `SubmitOffer`, `CancelOffer` and `KeepFunding`
use `funding/offer/submit`, `funding/offer/cancel` and `funding/keep` whenever
they reach the request factory. -/
theorem funding_endpoint_paths (env : Env S) (st : S.State) (symbol : String)
    (fo : S.FundingOfferRequest) (fc : S.FundingOfferCancelRequest)
    (args : KeepFundingRequest)
    (hne : symbol ≠ "") (hsl : '/' ∉ symbol.data) (hdot : symbol ≠ ".")
    (hdd : symbol ≠ "..") :
    (factoryPaths (FundingService.Offers env symbol (World.start st)).2.log =
          ["funding/offers/" ++ symbol] ∧
        factoryPaths (FundingService.OfferHistory env symbol (World.start st)).2.log =
          ["funding/offers/" ++ symbol ++ "/hist"] ∧
        factoryPaths (FundingService.Loans env symbol (World.start st)).2.log =
          ["funding/loans/" ++ symbol] ∧
        factoryPaths (FundingService.LoansHistory env symbol (World.start st)).2.log =
          ["funding/loans/" ++ symbol ++ "/hist"] ∧
        factoryPaths (FundingService.Credits env symbol (World.start st)).2.log =
          ["funding/credits/" ++ symbol] ∧
        factoryPaths (FundingService.CreditsHistory env symbol (World.start st)).2.log =
          ["funding/credits/" ++ symbol ++ "/hist"] ∧
        factoryPaths (FundingService.Trades env symbol (World.start st)).2.log =
          ["funding/trades/" ++ symbol ++ "/hist"]) ∧
      (factoryPaths (FundingService.Offers env "" (World.start st)).2.log =
          ["funding/offers"] ∧
        factoryPaths (FundingService.OfferHistory env "" (World.start st)).2.log =
          ["funding/offers/hist"] ∧
        factoryPaths (FundingService.Loans env "" (World.start st)).2.log =
          ["funding/loans"] ∧
        factoryPaths (FundingService.LoansHistory env "" (World.start st)).2.log =
          ["funding/loans/hist"] ∧
        factoryPaths (FundingService.Credits env "" (World.start st)).2.log =
          ["funding/credits"] ∧
        factoryPaths (FundingService.CreditsHistory env "" (World.start st)).2.log =
          ["funding/credits/hist"] ∧
        factoryPaths (FundingService.Trades env "" (World.start st)).2.log =
          ["funding/trades/hist"]) ∧
      (factoryPaths (FundingService.SubmitOffer env fo (World.start st)).2.log =
          (match (env.offerToJSON fo).2 with
            | none => ["funding/offer/submit"]
            | some _ => []) ∧
        factoryPaths (FundingService.CancelOffer env fc (World.start st)).2.log =
          (match (env.cancelToJSON fc).2 with
            | none => ["funding/offer/cancel"]
            | some _ => []) ∧
        factoryPaths (FundingService.KeepFunding env args (World.start st)).2.log =
          (if args.Type_ = "credit" ∨ args.Type_ = "loan" then ["funding/keep"] else [])) := by
  obtain ⟨⟨o1, o2⟩, ⟨l1, l2⟩, ⟨c1, c2⟩, ⟨-, t2⟩⟩ := pathJoin_funding symbol hne hsl hdot hdd
  have hq := query_paths env symbol st
  have hempty := query_paths env "" st
  rw [o1, o2, l1, l2, c1, c2, t2] at hq
  rw [show pathJoin ["funding/offers", ""] = "funding/offers" by decide,
    show pathJoin ["funding/offers", "", "hist"] = "funding/offers/hist" by decide,
    show pathJoin ["funding/loans", ""] = "funding/loans" by decide,
    show pathJoin ["funding/loans", "", "hist"] = "funding/loans/hist" by decide,
    show pathJoin ["funding/credits", ""] = "funding/credits" by decide,
    show pathJoin ["funding/credits", "", "hist"] = "funding/credits/hist" by decide,
    show pathJoin ["funding/trades", "", "hist"] = "funding/trades/hist" by decide] at hempty
  exact ⟨hq, hempty, mutating_paths env st fo fc args⟩

theorem funding_endpoint_paths_witness :
    ((("fUSD" : String) ≠ "" ∧ '/' ∉ ("fUSD" : String).data ∧ ("fUSD" : String) ≠ "." ∧
        ("fUSD" : String) ≠ "..") ∧
      factoryPaths (FundingService.Offers (demoEnv none none none) "fUSD"
        (World.start 0)).2.log = ["funding/offers/fUSD"] ∧
      factoryPaths (FundingService.Trades (demoEnv none none none) "fUSD"
        (World.start 0)).2.log = ["funding/trades/fUSD/hist"]) :=
  ⟨⟨by decide, by decide, by decide, by decide⟩,
    (funding_endpoint_paths (demoEnv none none none) 0 "fUSD" 1 2 { Type_ := "loan", ID := 3 }
      (by decide) (by decide) (by decide) (by decide)).1.1,
    (funding_endpoint_paths (demoEnv none none none) 0 "fUSD" 1 2 { Type_ := "loan", ID := 3 }
      (by decide) (by decide) (by decide) (by decide)).1.2.2.2.2.2.2⟩

end Rest

end Bitfinex
